import Mathlib

/-!
Shallow embedding of `netCDF_utilities/ncgen.py`.

Python values that flow through the generator (JSON/TOML scalars, numpy
arrays, strings, booleans, lists of dimension names) are modelled by
`PyVal`; numeric payloads are exact rationals.  Numpy dtypes relevant to
the module are modelled by `DType`.  Ordered Python dictionaries are
modelled by association lists with first-key lookup and
replace-or-append update (`alookup` / `setAssoc`), matching `dict`
semantics for unique keys with insertion order preserved.
-/

set_option autoImplicit false

namespace NcGen

/-- Numpy dtypes used by `ncgen.py`: the numeric dtypes accepted for
variables, the fixed-width character dtype `_CHAR_TYPE = np.dtype("S1")`
and the native string dtype `_STR_TYPE = np.dtype("<U")`. -/
inductive DType where
  | f32
  | f64
  | i16
  | i32
  | i64
  | char
  | vstr
deriving DecidableEq, Repr

/-- Python values handled by the generator: numbers (int/float, exact),
numeric arrays (list/tuple/ndarray/masked array), strings, booleans and
lists of strings (e.g. the value of a `dim` key). -/
inductive PyVal where
  | num (q : ℚ)
  | arr (l : List ℚ)
  | str (s : String)
  | pybool (b : Bool)
  | strList (l : List String)
deriving DecidableEq, Repr

/-- First-match lookup in an ordered association list (Python `d[k]` /
`k in d` for dicts, whose keys are unique). -/
def alookup {α : Type} (l : List (String × α)) (k : String) : Option α :=
  match l with
  | [] => none
  | p :: rest => if p.1 = k then some p.2 else alookup rest k

/-- Replace-or-append update of an ordered association list (Python
`d[k] = v` / `setncattr`): an existing key keeps its position, a new key
is appended at the end. -/
def setAssoc {α : Type} (l : List (String × α)) (k : String) (v : α) : List (String × α) :=
  match l with
  | [] => [(k, v)]
  | p :: rest => if p.1 = k then (k, v) :: rest else p :: setAssoc rest k v

/-- `_NC4_OPTIONS` from `ncgen.py`: keyword options forwarded verbatim to
`createVariable`. -/
def _NC4_OPTIONS : List String :=
  ["zlib", "complevel", "shuffle", "least_significant_digit", "fill_value",
   "compression", "szip_coding", "szip_pixels_per_block", "blosc_shuffle",
   "fletcher32", "contiguous", "chunksizes", "endian", "significant_digits",
   "quantize_mode", "chunk_cache"]

/-- `_NOT_ATTRS` from `ncgen.py`: structural keys plus the storage-encoding
options, never set as attributes. -/
def _NOT_ATTRS : List String :=
  ["size", "dtype", "dat", "dim", "var"] ++ _NC4_OPTIONS

/-- `_PACK_ATTRS` from `ncgen.py`: attribute names coerced at the fixed
unpacked-attribute precision. -/
def _PACK_ATTRS : List String :=
  ["add_offset", "scale_factor", "least_significant_digit", "actual_range"]

/-- `_STANDARD_GLOBAL_ATTR` from `ncgen.py`: CF-convention global
attribute names. -/
def _STANDARD_GLOBAL_ATTR : List String :=
  ["title", "institution", "source", "history", "references", "comments",
   "Conventions"]

/-- `_ACDD_GLOBAL_ATTR` from `ncgen.py`: Attribute Convention for Data
Discovery global attribute names. -/
def _ACDD_GLOBAL_ATTR : List String :=
  ["summary", "id", "naming_authority", "source", "processing_level",
   "acknowledgment", "license", "standard_name_vocabulary", "date_created",
   "creator_name", "creator_email", "creator_url", "project",
   "publisher_name", "publisher_email", "publisher_url",
   "geospatial_bounds", "geospatial_bounds_crs",
   "geospatial_bounds_vertical_crs", "geospatial_lat_min",
   "geospatial_lat_max", "geospatial_lon_min", "geospatial_lon_max",
   "geospatial_vertical_min", "geospatial_vertical_max",
   "geospatial_vertical_positive", "time_coverage_start",
   "time_coverage_end", "time_coverage_duration",
   "time_coverage_resolution", "creator_type", "creator_institution",
   "publisher_type", "publisher_institution", "program",
   "contributor_name", "contributor_role", "geospatial_lat_units",
   "geospatial_lat_resolution", "geospatial_lon_units",
   "geospatial_lon_resolution", "geospatial_vertical_units",
   "geospatial_vertical_resolution", "date_modified", "date_issued",
   "date_metadata_modified", "product_version", "keywords_vocabulary",
   "platform", "platform_vocabulary", "instrument",
   "instrument_vocabulary", "cdm_data_type", "metadata_link", "keywords",
   "keyword_vocabulary", "contributor_url", "contributor_type",
   "contributor_institution", "contributor_email"]

/-- Keys of `netCDF4._format_dict`: the formats accepted by the module. -/
def _NC_FMT : List String :=
  ["NETCDF4", "NETCDF4_CLASSIC", "NETCDF3_CLASSIC", "NETCDF3_64BIT_OFFSET",
   "NETCDF3_64BIT_DATA"]

/-- Whether a dtype belongs to `_STR_TYPES` (`str`, `S1`, `<U`). -/
def isStrDtype : DType → Bool
  | DType.char => true
  | DType.vstr => true
  | _ => false

/-- `numpy.rint` on an exact rational: round to the nearest integer,
ties to the even integer (IEEE round-half-even, numpy's default). -/
def rint (q : ℚ) : ℤ :=
  if q - ⌊q⌋ < 1 / 2 then ⌊q⌋
  else if q - ⌊q⌋ > 1 / 2 then ⌊q⌋ + 1
  else if ⌊q⌋ % 2 = 0 then ⌊q⌋ else ⌊q⌋ + 1

/-- Truncation toward zero (what `ncgen.py`'s comment says packing must
avoid). -/
def ratTrunc (q : ℚ) : ℤ :=
  if 0 ≤ q then ⌊q⌋ else -⌊-q⌋

/-- One element of `_pack_unpack`: `rint((x - add_offset) / scale_factor)
* scale_factor + add_offset`. -/
def puElem (x scale_factor add_offset : ℚ) : ℚ :=
  (rint ((x - add_offset) / scale_factor) : ℚ) * scale_factor + add_offset

/-- Elementwise `_pack_unpack` over an array payload. -/
def packUnpackL (v : List ℚ) (scale_factor add_offset : ℚ) : List ℚ :=
  v.map (fun x => puElem x scale_factor add_offset)

/-- Errors a build can raise: Python `KeyError` / `TypeError` /
`AssertionError`, and storage-engine (netCDF4 library) failures. -/
inductive BuildErr where
  | keyError (k : String)
  | typeError (m : String)
  | assertionError (m : String)
  | dupDimension (name : String)
  | dupVariable (name : String)
  | missingDimension (name : String)
deriving DecidableEq, Repr

/-- `_pack_unpack` from `ncgen.py`: `np.asarray` the value, subtract the
offset, divide by the scale, `np.rint`, multiply back, add the offset and
`astype(_AttrUnpackDtype)` — the resulting dtype tag is the fixed
`np.float32` precision.  Non-numeric payloads raise `TypeError`. -/
def _pack_unpack (unpacked_value : PyVal) (scale_factor add_offset : ℚ) :
    Except BuildErr (PyVal × DType) :=
  match unpacked_value with
  | PyVal.num q => Except.ok (PyVal.num (puElem q scale_factor add_offset), DType.f32)
  | PyVal.arr l => Except.ok (PyVal.arr (packUnpackL l scale_factor add_offset), DType.f32)
  | _ => Except.error (BuildErr.typeError "unsupported operand for pack_unpack")

/-- A stored attribute value: the payload together with the dtype it was
coerced to (`none` when stored without numeric coercion). -/
abbrev StoredAttr := PyVal × Option DType

/-- The value computed by `_add_attribute` in `ncgen.py` before
`setncattr`: packed-attribute names override the dtype to the fixed
`_AttrUnpackDtype` (`np.float32`); string-family dtypes skip coercion;
scalar and array payloads are cast to the resolved dtype; anything else
is stored as given. -/
def coerceAttr (attrName : String) (attrValue : PyVal) (dtype : DType) : StoredAttr :=
  let tmp := if _PACK_ATTRS.contains attrName then DType.f32 else dtype
  if isStrDtype tmp then (attrValue, none)
  else
    match attrValue with
    | PyVal.num q => (PyVal.num q, some tmp)
    | PyVal.pybool b => (PyVal.num (if b then 1 else 0), some tmp)
    | PyVal.arr l => (PyVal.arr l, some tmp)
    | v => (v, none)

/-- `_add_attribute` from `ncgen.py`: coerce and `setncattr` on an
attribute map. -/
def _add_attribute (attrs : List (String × StoredAttr)) (attrName : String)
    (attrValue : PyVal) (dtype : DType) : List (String × StoredAttr) :=
  setAssoc attrs attrName (coerceAttr attrName attrValue dtype)

/-- A write into a variable: a full-slice assignment `var[:] = v` or an
indexed assignment `var[i] = v`. -/
inductive WriteOp where
  | full (v : PyVal)
  | idx (i : ℕ) (v : PyVal)
deriving DecidableEq, Repr

/-- A created netCDF variable: dtype, dimension names, the encoding
options passed to `createVariable`, the attributes set on it, and the
data writes performed, in order. -/
structure NCVar where
  name : String
  dtype : DType
  dims : List String
  opts : List (String × PyVal)
  attrs : List (String × StoredAttr)
  writes : List WriteOp
deriving DecidableEq, Repr

/-- A netCDF group (or root dataset): its dimensions (size `none` means
unlimited), variables and attributes, each in creation order. -/
structure Group where
  dims : List (String × Option PyVal)
  vars : List NCVar
  attrs : List (String × PyVal)
deriving DecidableEq, Repr

/-- The empty group a fresh dataset or `createGroup` starts from. -/
def emptyGroup : Group := { dims := [], vars := [], attrs := [] }

/-- `createDimension` of the storage engine: fails when a dimension of
that name already exists in the group, otherwise appends it. -/
def createDimension (g : Group) (name : String) (size : Option PyVal) :
    Except BuildErr Group :=
  if (alookup g.dims name).isSome then Except.error (BuildErr.dupDimension name)
  else Except.ok { g with dims := g.dims ++ [(name, size)] }

/-- Rewrite the variable of the given name (variable names are unique in
a group once created). -/
def updateVar (g : Group) (varname : String) (f : NCVar → NCVar) : Group :=
  { g with vars := g.vars.map (fun v => if v.name = varname then f v else v) }

/-- `_create_var` from `ncgen.py`: filter the spec down to the
`_NC4_OPTIONS` keys and call the storage engine's `createVariable`,
which fails on a duplicate variable name or a dimension that does not
exist in the group. -/
def _create_var (g : Group) (varname : String) (datatype : DType)
    (dimensions : List String) (specAttrs : List (String × PyVal)) :
    Except BuildErr Group :=
  if (g.vars.map NCVar.name).contains varname then
    Except.error (BuildErr.dupVariable varname)
  else if dimensions.all (fun d => (alookup g.dims d).isSome) then
    Except.ok { g with vars := g.vars ++
      [{ name := varname, dtype := datatype, dims := dimensions,
         opts := specAttrs.filter (fun p => _NC4_OPTIONS.contains p.1),
         attrs := [], writes := [] }] }
  else Except.error (BuildErr.missingDimension varname)

/-- Dimension-size resolution from `_add_to_group` (the `size` /
`dat`-array / `dat`-scalar / unlimited chain).  A `dat` key whose named
data entry is missing raises `KeyError`; a payload that is neither an
array type nor a scalar type leaves the size `None` (unlimited). -/
def resolveSize (spec : List (String × PyVal)) (data : List (String × PyVal)) :
    Except BuildErr (Option PyVal) :=
  match alookup spec "size" with
  | some v => Except.ok (some v)
  | none =>
    match alookup spec "dat" with
    | none => Except.ok none
    | some (PyVal.str datName) =>
      match alookup data datName with
      | none => Except.error (BuildErr.keyError datName)
      | some (PyVal.arr l) => Except.ok (some (PyVal.num l.length))
      | some (PyVal.strList l) => Except.ok (some (PyVal.num l.length))
      | some (PyVal.num q) => Except.ok (some (PyVal.num q))
      | some (PyVal.pybool b) => Except.ok (some (PyVal.num (if b then 1 else 0)))
      | some (PyVal.str _) => Except.ok none
    | some _ => Except.error (BuildErr.keyError "dat")

/-- `np.dtype` on the dtype names the module works with. -/
def parseNpDtype (s : String) : Except BuildErr DType :=
  if s = "float32" then Except.ok DType.f32
  else if s = "float64" ∨ s = "float" ∨ s = "double" then Except.ok DType.f64
  else if s = "int16" then Except.ok DType.i16
  else if s = "int32" then Except.ok DType.i32
  else if s = "int64" ∨ s = "int" then Except.ok DType.i64
  else if s = "str" ∨ s = "unicode" then Except.ok DType.vstr
  else if s = "S1" then Except.ok DType.char
  else Except.error (BuildErr.typeError s)

/-- Dtype of a dimension's coordinate variable:
`np.dtype(nc_dims[dimname]["dtype"])`. -/
def dimDtype (spec : List (String × PyVal)) : Except BuildErr DType :=
  match alookup spec "dtype" with
  | none => Except.error (BuildErr.keyError "dtype")
  | some (PyVal.str s) => parseNpDtype s
  | some _ => Except.error (BuildErr.typeError "dtype")

/-- Python truthiness of the `var` key's value. -/
def truthy : PyVal → Bool
  | PyVal.num q => decide (q ≠ 0)
  | PyVal.arr l => decide (l ≠ [])
  | PyVal.str s => decide (s ≠ "")
  | PyVal.pybool b => b
  | PyVal.strList l => decide (l ≠ [])

/-- The attribute loop over a dimension's spec in `_add_to_group`: keys
outside `_NOT_ATTRS` are attached via `_add_attribute`; the `dat` key
writes the named data entry into the coordinate variable with a
full-slice assignment. -/
def dimAttrLoop (g : Group) (dimname : String) (dtype : DType)
    (data : List (String × PyVal)) (l : List (String × PyVal)) :
    Except BuildErr Group :=
  match l with
  | [] => Except.ok g
  | p :: rest =>
    if _NOT_ATTRS.contains p.1 then
      if p.1 = "dat" then
        match p.2 with
        | PyVal.str datName =>
          match alookup data datName with
          | some payload =>
            dimAttrLoop
              (updateVar g dimname
                (fun v => { v with writes := v.writes ++ [WriteOp.full payload] }))
              dimname dtype data rest
          | none => Except.error (BuildErr.keyError datName)
        | _ => Except.error (BuildErr.keyError "dat")
      else dimAttrLoop g dimname dtype data rest
    else
      dimAttrLoop
        (updateVar g dimname
          (fun v => { v with attrs := _add_attribute v.attrs p.1 p.2 dtype }))
        dimname dtype data rest

/-- The `var_create` flag of `_add_to_group`: the truthiness of the
`var` key, defaulting to true. -/
def dimVarCreate (spec : List (String × PyVal)) : Bool :=
  match alookup spec "var" with
  | some v => truthy v
  | none => true

/-- Processing of one entry of `config["dimensions"]` in
`_add_to_group`: resolve the size, create the dimension, and unless
`var` is falsy create the coordinate variable and run the attribute
loop. -/
def processDim (data : List (String × PyVal)) (g : Group)
    (dimname : String) (spec : List (String × PyVal)) : Except BuildErr Group :=
  match resolveSize spec data with
  | Except.error e => Except.error e
  | Except.ok size =>
    match createDimension g dimname size with
    | Except.error e => Except.error e
    | Except.ok g1 =>
      if dimVarCreate spec then
        match dimDtype spec with
        | Except.error e => Except.error e
        | Except.ok dtype =>
          match _create_var g1 dimname dtype [dimname] spec with
          | Except.error e => Except.error e
          | Except.ok g2 => dimAttrLoop g2 dimname dtype data spec
      else Except.ok g1

/-- The dimension loop of `_add_to_group`, in configuration order. -/
def processDims (data : List (String × PyVal)) (g : Group)
    (l : List (String × List (String × PyVal))) : Except BuildErr Group :=
  match l with
  | [] => Except.ok g
  | p :: rest =>
    match processDim data g p.1 p.2 with
    | Except.error e => Except.error e
    | Except.ok g1 => processDims data g1 rest

/-- A group's configuration subtree: the optional `attributes` mapping
and the ordered `dimensions` and `variables` mappings (fields named
after the source's locals `nc_dims` and `nc_vars`). -/
structure GroupConfig where
  attributes : Option (List (String × PyVal))
  nc_dims : List (String × List (String × PyVal))
  nc_vars : List (String × List (String × PyVal))
deriving DecidableEq, Repr

/-- Effective dtype of a variable in `_add_to_group`: the literal `str`
maps to `_CHAR_TYPE` unless the format is `NETCDF4` (then `_STR_TYPE`);
anything else goes through `np.dtype`. -/
def varDtype (spec : List (String × PyVal)) (nc_format : String) :
    Except BuildErr DType :=
  match alookup spec "dtype" with
  | none => Except.error (BuildErr.keyError "dtype")
  | some (PyVal.str s) =>
    if s = "str" then
      Except.ok (if nc_format ≠ "NETCDF4" then DType.char else DType.vstr)
    else parseNpDtype s
  | some _ => Except.error (BuildErr.typeError "dtype")

/-- The fill-value scan in `_add_to_group`: the first spec key equal to
`fill_value` or `_FillValue`, in key order. -/
def varFillValue (spec : List (String × PyVal)) : Option PyVal :=
  (spec.find? (fun p => p.1 = "fill_value" ∨ p.1 = "_FillValue")).map Prod.snd

/-- Python `len` on a data payload. -/
def pyLen : PyVal → Except BuildErr ℕ
  | PyVal.str s => Except.ok s.length
  | PyVal.arr l => Except.ok l.length
  | PyVal.strList l => Except.ok l.length
  | _ => Except.error (BuildErr.typeError "len")

/-- The `"strdim%02d" % size` dimension name. -/
def strdimName (size : ℕ) : String :=
  "strdim" ++ (if size < 10 then "0" ++ toString size else toString size)

/-- The assertion message of `_add_to_group` for a missing dimension. -/
def missingDimMsg (varname : String) : String :=
  "One of the dimensions for " ++ varname ++ " does not exist"

/-- Dimension resolution for one variable in `_add_to_group`: a declared
`dim` list is asserted against the keys of `config["dimensions"]`
(`nc_dims`); an undeclared `dim` with effective dtype `_CHAR_TYPE`
synthesizes the `strdim%02d` dimension, creating it only when its name
is not a key of `config["variables"]` (`nc_vars`, as the source
checks); otherwise the variable is scalar.  Returns the possibly
extended group, the dimension names, and the `has_dim` flag. -/
def varDims (g : Group) (cfgVarNames : List String) (dimNames : List String)
    (data : List (String × PyVal)) (varname : String)
    (spec : List (String × PyVal)) (dtype : DType) :
    Except BuildErr (Group × List String × Bool) :=
  match alookup spec "dim" with
  | some (PyVal.strList ds) =>
    if ds.all (fun d => dimNames.contains d) then Except.ok (g, ds, true)
    else Except.error (BuildErr.assertionError (missingDimMsg varname))
  | some _ => Except.error (BuildErr.typeError "dim")
  | none =>
    if dtype = DType.char then
      match alookup data varname with
      | none => Except.error (BuildErr.keyError varname)
      | some payload =>
        match pyLen payload with
        | Except.error e => Except.error e
        | Except.ok size =>
          let dimname := strdimName size
          if cfgVarNames.contains dimname then Except.ok (g, [dimname], false)
          else
            match createDimension g dimname (some (PyVal.num size)) with
            | Except.error e => Except.error e
            | Except.ok g1 => Except.ok (g1, [dimname], false)
    else Except.ok (g, [], false)

/-- The warning message emitted when `actual_range` is declared but
`scale_factor` or `add_offset` is missing. -/
def scaleWarnMsg (varname : String) : String :=
  "scale_factor and add_offset are not defined for " ++ varname ++ "."

/-- The attribute loop over a variable's spec in `_add_to_group`: keys
outside `_NOT_ATTRS` are attached via `_add_attribute`; `actual_range`
is first run through `_pack_unpack` when both `scale_factor` and
`add_offset` exist in the same spec, and otherwise stored raw after a
non-fatal warning. -/
def attrLoop (spec : List (String × PyVal)) (varname : String) (dtype : DType)
    (acc : List (String × StoredAttr)) (warns : List String)
    (l : List (String × PyVal)) :
    Except BuildErr (List (String × StoredAttr) × List String) :=
  match l with
  | [] => Except.ok (acc, warns)
  | p :: rest =>
    if _NOT_ATTRS.contains p.1 then attrLoop spec varname dtype acc warns rest
    else
      if p.1 = "actual_range" then
        match alookup spec "scale_factor", alookup spec "add_offset" with
        | some sfv, some aov =>
          match sfv, aov with
          | PyVal.num sf, PyVal.num ao =>
            match _pack_unpack p.2 sf ao with
            | Except.error e => Except.error e
            | Except.ok pv =>
              attrLoop spec varname dtype (_add_attribute acc p.1 pv.1 dtype) warns rest
          | _, _ => Except.error (BuildErr.typeError "pack_unpack operands")
        | _, _ =>
          attrLoop spec varname dtype (_add_attribute acc p.1 p.2 dtype)
            (warns ++ [scaleWarnMsg varname]) rest
      else attrLoop spec varname dtype (_add_attribute acc p.1 p.2 dtype) warns rest

/-- The data-writing step for one variable in `_add_to_group`: a
`_CHAR_TYPE` variable is written character by character; a dimensioned
variable gets a full-slice write (raw for string dtypes, masked-array
wrapped otherwise); an undimensioned variable is written at index 0.
A variable with no data entry is left unwritten. -/
def dataWrite (g : Group) (data : List (String × PyVal)) (varname : String)
    (dtype : DType) (hasDim : Bool) : Except BuildErr Group :=
  match alookup data varname with
  | none => Except.ok g
  | some payload =>
    if dtype = DType.char then
      match payload with
      | PyVal.str s =>
        Except.ok (updateVar g varname (fun v =>
          { v with writes := v.writes ++
              (s.toList.enum.map (fun p => WriteOp.idx p.1 (PyVal.str (String.singleton p.2)))) }))
      | _ => Except.error (BuildErr.typeError "stringtoarr")
    else if hasDim then
      if isStrDtype dtype then
        match payload with
        | PyVal.arr l =>
          Except.ok (updateVar g varname (fun v =>
            { v with writes := v.writes ++ [WriteOp.full (PyVal.arr l)] }))
        | _ => Except.error (BuildErr.typeError "data attribute access")
      else
        Except.ok (updateVar g varname (fun v =>
          { v with writes := v.writes ++ [WriteOp.full payload] }))
    else
      Except.ok (updateVar g varname (fun v =>
        { v with writes := v.writes ++ [WriteOp.idx 0 payload] }))

/-- Processing of one entry of `config["variables"]` in `_add_to_group`,
threading the warning list. -/
def processVar (cfg : GroupConfig) (data : List (String × PyVal))
    (nc_format : String) (g : Group) (warns : List String)
    (varname : String) (spec : List (String × PyVal)) :
    Except BuildErr (Group × List String) :=
  match varDtype spec nc_format with
  | Except.error e => Except.error e
  | Except.ok dtype =>
    match varDims g (cfg.nc_vars.map Prod.fst) (cfg.nc_dims.map Prod.fst)
        data varname spec dtype with
    | Except.error e => Except.error e
    | Except.ok (g1, dims, hasDim) =>
      match _create_var g1 varname dtype dims spec with
      | Except.error e => Except.error e
      | Except.ok g2 =>
        match attrLoop spec varname dtype [] warns spec with
        | Except.error e => Except.error e
        | Except.ok (attrs, warns1) =>
          let g3 := updateVar g2 varname (fun v => { v with attrs := attrs })
          match dataWrite g3 data varname dtype hasDim with
          | Except.error e => Except.error e
          | Except.ok g4 => Except.ok (g4, warns1)

/-- The variable loop of `_add_to_group`, in configuration order. -/
def processVars (cfg : GroupConfig) (data : List (String × PyVal))
    (nc_format : String) (g : Group) (warns : List String)
    (l : List (String × List (String × PyVal))) :
    Except BuildErr (Group × List String) :=
  match l with
  | [] => Except.ok (g, warns)
  | p :: rest =>
    match processVar cfg data nc_format g warns p.1 p.2 with
    | Except.error e => Except.error e
    | Except.ok (g1, warns1) => processVars cfg data nc_format g1 warns1 rest

/-- The group-level attribute step of `_add_to_group`: raw `setncattr`
of every pair of `config["attributes"]`, when present. -/
def applyGroupAttrs (g : Group) (o : Option (List (String × PyVal))) : Group :=
  match o with
  | none => g
  | some l => { g with attrs := l.foldl (fun a p => setAssoc a p.1 p.2) g.attrs }

/-- `_add_to_group` from `ncgen.py`: group attributes, then the
dimension loop, then the variable loop; returns the populated group and
the warnings emitted. -/
def _add_to_group (g : Group) (data : List (String × PyVal))
    (cfg : GroupConfig) (nc_format : String) :
    Except BuildErr (Group × List String) :=
  let g0 := applyGroupAttrs g cfg.attributes
  match processDims data g0 cfg.nc_dims with
  | Except.error e => Except.error e
  | Except.ok g1 => processVars cfg data nc_format g1 [] cfg.nc_vars

deriving instance DecidableEq for Except

/-- A filesystem: paths mapped to opaque content tokens. -/
abbrev FS := List (String × ℕ)

/-- `os.path.exists`. -/
def fsExists (fs : FS) (f : String) : Bool :=
  (alookup fs f).isSome

/-- `os.remove`: drop the entry for the path. -/
def fsRemove (fs : FS) (f : String) : FS :=
  match fs with
  | [] => []
  | p :: rest => if p.1 = f then fsRemove rest f else p :: fsRemove rest f

/-- Creating/overwriting a file (the `netCDF4.Dataset(..., mode="w")`
call); the fresh dataset file gets content token 1. -/
def fsWrite (fs : FS) (f : String) (c : ℕ) : FS :=
  setAssoc fs f c

/-- Errors `ncgen` can raise: `OSError` for an existing target, the
`ValueError` for a bad format, the `OSError` for a bad configuration
extension, and errors propagated from the build. -/
inductive NcErr where
  | fileExists (f : String)
  | invalidFormat (fmt : String)
  | badExtension (ext : String)
  | typeError (m : String)
  | groupKeyError (k : String)
  | buildError (e : BuildErr)
deriving DecidableEq, Repr

/-- A full configuration: the required `global_attributes` mapping, an
optional `groups` mapping, and the root-level group subtree used when
`groups` is absent. -/
structure NcConfig where
  global_attributes : List (String × PyVal)
  groups : Option (List (String × GroupConfig))
  root : GroupConfig
deriving DecidableEq, Repr

/-- The `nc_config` argument: either an already-parsed mapping or a file
path together with the mapping its contents parse to. -/
inductive ConfigSource where
  | dict (c : NcConfig)
  | file (path : String) (parsed : NcConfig)
deriving DecidableEq, Repr

/-- The last separator-delimited segment of a character list: the
result of Python `s.split(sep)[-1]`. -/
def lastSegment (sep : Char) (l : List Char) : List Char :=
  l.foldl (fun acc c => if c = sep then [] else acc ++ [c]) []

/-- `os.path.basename(p).split(".")[-1]`. -/
def extOf (path : String) : String :=
  String.mk (lastSegment '.' (lastSegment '/' path.toList))

/-- The `data` argument of `ncgen`: the payload entries, the optional
`global_attributes` sub-mapping, and the per-group payload mappings. -/
structure DataMap where
  entries : List (String × PyVal)
  global_attributes : Option (List (String × PyVal))
  groups : List (String × List (String × PyVal))
deriving DecidableEq, Repr

/-- The recognized global-attribute vocabulary:
`_STANDARD_GLOBAL_ATTR + _ACDD_GLOBAL_ATTR`. -/
def globalVocab : List String :=
  _STANDARD_GLOBAL_ATTR ++ _ACDD_GLOBAL_ATTR

/-- The warning message for an unrecognized configuration global
attribute. -/
def vocabWarnMsg (attrName : String) : String :=
  attrName ++ " not in list of standard global attributes or ACDD"

/-- The loop over `nc_config_dict["global_attributes"]` in `ncgen`:
warn for names outside the vocabulary, then set the attribute. -/
def applyCfgGlobalAttrs (attrs : List (String × PyVal)) (warns : List String)
    (l : List (String × PyVal)) : List (String × PyVal) × List String :=
  match l with
  | [] => (attrs, warns)
  | p :: rest =>
    let warns1 := if globalVocab.contains p.1 then warns
      else warns ++ [vocabWarnMsg p.1]
    applyCfgGlobalAttrs (setAssoc attrs p.1 p.2) warns1 rest

/-- The timestamp/history stamping in `ncgen`: keep an existing
`date_created` (else stamp the current timestamp), default
`date_modified` to it, and set `history` to `Created <date_created>`
followed by any configuration-supplied history text. -/
def stampPhase (attrs : List (String × PyVal))
    (cfgAttrs : List (String × PyVal)) (ts : String) :
    Except NcErr (List (String × PyVal)) :=
  match (match alookup attrs "date_created" with
         | none => Except.ok (setAssoc attrs "date_created" (PyVal.str ts), ts)
         | some (PyVal.str dc) => Except.ok (attrs, dc)
         | some _ => Except.error (NcErr.typeError "date_created")
         : Except NcErr (List (String × PyVal) × String)) with
  | Except.error e => Except.error e
  | Except.ok (attrs1, dc) =>
    let attrs2 := if (alookup attrs1 "date_modified").isSome then attrs1
      else setAssoc attrs1 "date_modified" (PyVal.str dc)
    match alookup cfgAttrs "history" with
    | some (PyVal.str hh) =>
      Except.ok (setAssoc attrs2 "history" (PyVal.str ("Created " ++ dc ++ " " ++ hh)))
    | some _ => Except.error (NcErr.typeError "history")
    | none => Except.ok (setAssoc attrs2 "history" (PyVal.str ("Created " ++ dc)))

/-- The loop over `data.get("global_attributes", [])` in `ncgen`: plain
`setattr` of every pair, with no vocabulary check and no warning. -/
def applyDataGlobalAttrs (attrs : List (String × PyVal))
    (o : Option (List (String × PyVal))) : List (String × PyVal) :=
  match o with
  | none => attrs
  | some l => l.foldl (fun a p => setAssoc a p.1 p.2) attrs

/-- The dataset produced by one run: its global attributes, the root
group contents, and the named sub-groups. -/
structure Dataset where
  attrs : List (String × PyVal)
  root : Group
  groups : List (String × Group)
deriving DecidableEq, Repr

/-- The `groups` loop of `ncgen`: create each group and populate it from
`data["groups"][groupname]` with `_add_to_group`. -/
def buildGroups (dgroups : List (String × List (String × PyVal)))
    (nc_format : String) (l : List (String × GroupConfig))
    (acc : List (String × Group)) (warns : List String) :
    Except NcErr (List (String × Group) × List String) :=
  match l with
  | [] => Except.ok (acc, warns)
  | p :: rest =>
    match alookup dgroups p.1 with
    | none => Except.error (NcErr.groupKeyError p.1)
    | some gdata =>
      match _add_to_group emptyGroup gdata p.2 nc_format with
      | Except.error e => Except.error (NcErr.buildError e)
      | Except.ok (g, w) =>
        buildGroups dgroups nc_format rest (acc ++ [(p.1, g)]) (warns ++ w)

/-- Everything `ncgen` does inside the opened dataset: configuration
global attributes (with vocabulary warnings), timestamp/history
stamping, data-supplied global attributes, then `_add_to_group` per
group or once on the root. -/
def buildDataset (cfg : NcConfig) (data : DataMap) (nc_format : String)
    (ts : String) : Except NcErr (Dataset × List String) :=
  let acfg := applyCfgGlobalAttrs [] [] cfg.global_attributes
  match stampPhase acfg.1 cfg.global_attributes ts with
  | Except.error e => Except.error e
  | Except.ok attrs2 =>
    let attrs3 := applyDataGlobalAttrs attrs2 data.global_attributes
    match cfg.groups with
    | some gs =>
      match buildGroups data.groups nc_format gs [] acfg.2 with
      | Except.error e => Except.error e
      | Except.ok (groups, warns2) =>
        Except.ok ({ attrs := attrs3, root := emptyGroup, groups := groups }, warns2)
    | none =>
      match _add_to_group emptyGroup data.entries cfg.root nc_format with
      | Except.error e => Except.error (NcErr.buildError e)
      | Except.ok (g, w) =>
        Except.ok ({ attrs := attrs3, root := g, groups := [] }, acfg.2 ++ w)

/-- Everything `ncgen` does after the existence/clobber step: the
format check, the configuration-source resolution, then dataset
creation (which writes the target file) and population.  The returned
filesystem reflects every mutation performed up to the point of return,
also on the error paths. -/
def ncgenOpen (fs1 : FS) (filename : String) (data : DataMap)
    (nc_config : ConfigSource) (nc_format : String) (ts : String) :
    FS × Except NcErr (Dataset × List String) :=
  if _NC_FMT.contains nc_format then
    match (match nc_config with
           | ConfigSource.dict c => Except.ok c
           | ConfigSource.file path parsed =>
             let ext := extOf path
             if ext = "json" ∨ ext = "toml" then Except.ok parsed
             else Except.error (NcErr.badExtension ext)
           : Except NcErr NcConfig) with
    | Except.error e => (fs1, Except.error e)
    | Except.ok cfg =>
      let fs2 := fsWrite fs1 filename 1
      match buildDataset cfg data nc_format ts with
      | Except.error e => (fs2, Except.error e)
      | Except.ok dw => (fs2, Except.ok dw)
  else (fs1, Except.error (NcErr.invalidFormat nc_format))

/-- `ncgen` from `ncgen.py`, with the filesystem threaded explicitly:
the existence/clobber step (`os.path.exists` / `os.remove` / `OSError`)
followed by `ncgenOpen`. -/
def ncgenRun (fs : FS) (filename : String) (data : DataMap)
    (nc_config : ConfigSource) (nc_format : String) (clobber : Bool)
    (ts : String) : FS × Except NcErr (Dataset × List String) :=
  if fsExists fs filename then
    if clobber then ncgenOpen (fsRemove fs filename) filename data nc_config nc_format ts
    else (fs, Except.error (NcErr.fileExists filename))
  else ncgenOpen fs filename data nc_config nc_format ts

/-- No attribute in the list has a name from `_NOT_ATTRS`. -/
def attrsOk (l : List (String × StoredAttr)) : Prop :=
  ∀ a ∈ l, _NOT_ATTRS.contains a.1 = false

/-- Every variable of the group satisfies `attrsOk`. -/
def varsOk (g : Group) : Prop :=
  ∀ v ∈ g.vars, attrsOk v.attrs

/-! Basic lemmas about association lists and the rounding function. -/

theorem alookup_append_of_none {α : Type} (l : List (String × α)) (k : String)
    (v : α) (h : alookup l k = none) : alookup (l ++ [(k, v)]) k = some v := by
  induction l with
  | nil => simp [alookup]
  | cons p rest ih =>
    rw [alookup] at h
    by_cases hk : p.1 = k
    · simp [hk] at h
    · simpa [alookup, hk] using ih (by simpa [hk] using h)

theorem alookup_setAssoc_self {α : Type} (l : List (String × α)) (k : String)
    (v : α) : alookup (setAssoc l k v) k = some v := by
  induction l with
  | nil => simp [setAssoc, alookup]
  | cons p rest ih =>
    by_cases hk : p.1 = k
    · simp [setAssoc, hk, alookup]
    · simpa [setAssoc, hk, alookup] using ih

theorem alookup_setAssoc_other {α : Type} (l : List (String × α)) (k k' : String)
    (v : α) (h : k' ≠ k) : alookup (setAssoc l k v) k' = alookup l k' := by
  induction l with
  | nil => simp [setAssoc, alookup, Ne.symm h]
  | cons p rest ih =>
    rw [setAssoc]
    by_cases hk : p.1 = k
    · have hp : ¬p.1 = k' := by rw [hk]; exact Ne.symm h
      rw [if_pos hk, alookup, alookup, if_neg (fun hh => h hh.symm), if_neg hp]
    · rw [if_neg hk, alookup, alookup]
      by_cases hk' : p.1 = k'
      · rw [if_pos hk', if_pos hk']
      · rw [if_neg hk', if_neg hk', ih]

theorem mem_setAssoc {α : Type} {P : String × α → Prop} {l : List (String × α)}
    {k : String} {v : α} (hl : ∀ p ∈ l, P p) (hkv : P (k, v)) :
    ∀ p ∈ setAssoc l k v, P p := by
  induction l with
  | nil => simpa [setAssoc]
  | cons q rest ih =>
    intro p hp
    rw [setAssoc] at hp
    by_cases hq : q.1 = k
    · simp only [hq, if_true, List.mem_cons] at hp
      rcases hp with h | h
      · subst h; exact hkv
      · exact hl p (List.mem_cons_of_mem _ h)
    · simp only [hq, if_false, List.mem_cons] at hp
      rcases hp with h | h
      · subst h; exact hl p (List.mem_cons_self _ _)
      · exact ih (fun r hr => hl r (List.mem_cons_of_mem _ hr)) p h

theorem rint_fract_bounds (q : ℚ) : 0 ≤ q - ⌊q⌋ ∧ q - ⌊q⌋ < 1 := by
  constructor
  · have := Int.floor_le q
    linarith
  · have := Int.lt_floor_add_one q
    push_cast at this ⊢
    linarith

/-- `rint` rounds to the nearest integer: the distance to the argument
is at most one half. -/
theorem rint_nearest (q : ℚ) : |(rint q : ℚ) - q| ≤ 1 / 2 := by
  obtain ⟨h0, h1⟩ := rint_fract_bounds q
  rw [rint]
  split_ifs with hlt hgt heven
  · rw [abs_le]
    constructor <;> linarith
  · push_cast
    rw [abs_le]
    have hle : q - ⌊q⌋ ≤ 1 := le_of_lt h1
    constructor <;> linarith
  · have heq : q - ⌊q⌋ = 1 / 2 := le_antisymm (not_lt.mp hgt) (not_lt.mp hlt)
    rw [abs_le]
    constructor <;> linarith
  · have heq : q - ⌊q⌋ = 1 / 2 := le_antisymm (not_lt.mp hgt) (not_lt.mp hlt)
    push_cast
    rw [abs_le]
    constructor <;> linarith

theorem rint_three_halves : rint (3 / 2) = 2 := by
  have hf : ⌊(3 / 2 : ℚ)⌋ = 1 := by
    rw [Int.floor_eq_iff]
    norm_num
  rw [rint, hf]
  norm_num

theorem ratTrunc_three_halves : ratTrunc (3 / 2) = 1 := by
  have hf : ⌊(3 / 2 : ℚ)⌋ = 1 := by
    rw [Int.floor_eq_iff]
    norm_num
  rw [ratTrunc, if_pos (by norm_num), hf]

/-! ## Claim theorems -/

/-- C5: the pack-then-unpack transform computes, for every input array,
scale and offset, exactly
`rint((value - add_offset) / scale_factor) * scale_factor + add_offset`
elementwise — the offset is subtracted, the quotient by the scale is
rounded to a nearest integer under the single rule `rint` (which
differs from truncation toward zero, e.g. at `3/2`), the result is
multiplied back and offset, and tagged with the fixed `float32`
intermediate precision. -/
theorem c5_pack_unpack_algorithm :
    (∀ (v : List ℚ) (sf ao : ℚ),
      _pack_unpack (PyVal.arr v) sf ao =
        Except.ok (PyVal.arr (v.map (fun x => (rint ((x - ao) / sf) : ℚ) * sf + ao)),
          DType.f32)) ∧
    (∀ (x sf ao : ℚ),
      _pack_unpack (PyVal.num x) sf ao =
        Except.ok (PyVal.num ((rint ((x - ao) / sf) : ℚ) * sf + ao), DType.f32)) ∧
    (∀ q : ℚ, |(rint q : ℚ) - q| ≤ 1 / 2) ∧
    rint (3 / 2) ≠ ratTrunc (3 / 2) := by
  refine ⟨fun v sf ao => rfl, fun x sf ao => rfl, rint_nearest, ?_⟩
  rw [rint_three_halves, ratTrunc_three_halves]
  decide

/-- C6: attribute coercion uses the fixed `float32` precision for the
four packed-attribute keys, independently of the variable's own storage
dtype; every other name is coerced at the target dtype, and
string-family target dtypes pass the value through uncoerced. -/
theorem c6_pack_attr_dtype :
    (∀ (a : String) (v : PyVal) (t1 t2 : DType), _PACK_ATTRS.contains a = true →
      coerceAttr a v t1 = coerceAttr a v t2) ∧
    (∀ (a : String) (q : ℚ) (t : DType), _PACK_ATTRS.contains a = true →
      coerceAttr a (PyVal.num q) t = (PyVal.num q, some DType.f32)) ∧
    (∀ (a : String) (l : List ℚ) (t : DType), _PACK_ATTRS.contains a = true →
      coerceAttr a (PyVal.arr l) t = (PyVal.arr l, some DType.f32)) ∧
    (∀ (a : String) (q : ℚ) (t : DType), _PACK_ATTRS.contains a = false →
      isStrDtype t = false → coerceAttr a (PyVal.num q) t = (PyVal.num q, some t)) ∧
    (∀ (a : String) (l : List ℚ) (t : DType), _PACK_ATTRS.contains a = false →
      isStrDtype t = false → coerceAttr a (PyVal.arr l) t = (PyVal.arr l, some t)) ∧
    (∀ (a : String) (v : PyVal) (t : DType), _PACK_ATTRS.contains a = false →
      isStrDtype t = true → coerceAttr a v t = (v, none)) := by
  refine ⟨?_, ?_, ?_, ?_, ?_, ?_⟩
  · intro a v t1 t2 h
    have h' : a ∈ _PACK_ATTRS := by simpa using h
    simp [coerceAttr, h']
  · intro a q t h
    have h' : a ∈ _PACK_ATTRS := by simpa using h
    simp [coerceAttr, h', isStrDtype]
  · intro a l t h
    have h' : a ∈ _PACK_ATTRS := by simpa using h
    simp [coerceAttr, h', isStrDtype]
  · intro a q t h hs
    have h' : a ∉ _PACK_ATTRS := by simpa using h
    simp [coerceAttr, h', hs]
  · intro a l t h hs
    have h' : a ∉ _PACK_ATTRS := by simpa using h
    simp [coerceAttr, h', hs]
  · intro a v t h hs
    have h' : a ∉ _PACK_ATTRS := by simpa using h
    simp [coerceAttr, h', hs]

/-- Witness for C6 at concrete inputs: `actual_range` on an `int16`
variable is coerced at `float32`, an ordinary attribute on an `int16`
variable at `int16`, and a string-dtype target passes through. -/
theorem c6_pack_attr_dtype_witness :
    coerceAttr "actual_range" (PyVal.num 3) DType.i16 = (PyVal.num 3, some DType.f32) ∧
    coerceAttr "units" (PyVal.num 3) DType.i16 = (PyVal.num 3, some DType.i16) ∧
    coerceAttr "units" (PyVal.str "K") DType.vstr = (PyVal.str "K", none) := by
  refine ⟨c6_pack_attr_dtype.2.1 "actual_range" 3 DType.i16 (by decide),
    c6_pack_attr_dtype.2.2.2.1 "units" 3 DType.i16 (by decide) (by decide),
    c6_pack_attr_dtype.2.2.2.2.2 "units" (PyVal.str "K") DType.vstr (by decide) (by decide)⟩

/-! Preservation lemmas for the dimension loop. -/

theorem createDimension_ok {g : Group} {n : String} {s : Option PyVal} {g' : Group}
    (h : createDimension g n s = Except.ok g') :
    alookup g.dims n = none ∧ g'.dims = g.dims ++ [(n, s)] ∧
      g'.vars = g.vars ∧ g'.attrs = g.attrs := by
  rw [createDimension] at h
  by_cases hn : (alookup g.dims n).isSome = true
  · rw [if_pos hn] at h
    exact absurd h (by simp)
  · rw [if_neg hn] at h
    have hg := Except.ok.inj h
    subst hg
    exact ⟨by simpa using hn, rfl, rfl, rfl⟩

theorem _create_var_ok {g : Group} {vn : String} {dt : DType} {ds : List String}
    {sp : List (String × PyVal)} {g' : Group}
    (h : _create_var g vn dt ds sp = Except.ok g') :
    g'.dims = g.dims ∧ g'.attrs = g.attrs ∧
      g'.vars = g.vars ++
        [{ name := vn, dtype := dt, dims := ds,
           opts := sp.filter (fun p => _NC4_OPTIONS.contains p.1),
           attrs := [], writes := [] }] := by
  rw [_create_var] at h
  by_cases h1 : (g.vars.map NCVar.name).contains vn = true
  · rw [if_pos h1] at h
    exact absurd h (by simp)
  · rw [if_neg h1] at h
    by_cases h2 : (ds.all fun d => (alookup g.dims d).isSome) = true
    · rw [if_pos h2] at h
      have hg := Except.ok.inj h
      subst hg
      exact ⟨rfl, rfl, rfl⟩
    · rw [if_neg h2] at h
      exact absurd h (by simp)

theorem dimAttrLoop_ok :
    ∀ (l : List (String × PyVal)) (g g' : Group) (dn : String) (dt : DType)
      (data : List (String × PyVal)),
      dimAttrLoop g dn dt data l = Except.ok g' →
      g'.dims = g.dims ∧ g'.attrs = g.attrs := by
  intro l
  induction l with
  | nil =>
    intro g g' dn dt data h
    rw [dimAttrLoop] at h
    rw [← Except.ok.inj h]
    exact ⟨rfl, rfl⟩
  | cons p rest ih =>
    intro g g' dn dt data h
    rw [dimAttrLoop] at h
    by_cases h1 : _NOT_ATTRS.contains p.1 = true
    · rw [if_pos h1] at h
      by_cases h2 : p.1 = "dat"
      · rw [if_pos h2] at h
        cases hv : p.2 <;> rw [hv] at h <;> try simp at h
        rename_i s
        cases hl : alookup data s <;> rw [hl] at h
        · simp at h
        · have hres := ih _ _ _ _ _ h
          exact hres
      · rw [if_neg h2] at h
        exact ih _ _ _ _ _ h
    · rw [if_neg h1] at h
      have hres := ih _ _ _ _ _ h
      exact hres

theorem processDim_ok {data : List (String × PyVal)} {g : Group} {dn : String}
    {spec : List (String × PyVal)} {g' : Group}
    (h : processDim data g dn spec = Except.ok g') :
    ∃ sz, resolveSize spec data = Except.ok sz ∧
      alookup g.dims dn = none ∧
      g'.dims = g.dims ++ [(dn, sz)] ∧ g'.attrs = g.attrs := by
  rw [processDim] at h
  cases hrs : resolveSize spec data with
  | error e =>
    rw [hrs] at h
    exact absurd h (by simp)
  | ok sz =>
    rw [hrs] at h
    dsimp only [] at h
    cases hcd : createDimension g dn sz with
    | error e =>
      rw [hcd] at h
      exact absurd h (by simp)
    | ok g1 =>
      rw [hcd] at h
      dsimp only [] at h
      obtain ⟨hnone, hdims, _, hattrs⟩ := createDimension_ok hcd
      by_cases hvc : dimVarCreate spec = true
      · rw [if_pos hvc] at h
        cases hdt : dimDtype spec with
        | error e =>
          rw [hdt] at h
          exact absurd h (by simp)
        | ok dtype =>
          rw [hdt] at h
          dsimp only [] at h
          cases hcv : _create_var g1 dn dtype [dn] spec with
          | error e =>
            rw [hcv] at h
            exact absurd h (by simp)
          | ok g2 =>
            rw [hcv] at h
            dsimp only [] at h
            obtain ⟨hd2, ha2, _⟩ := _create_var_ok hcv
            obtain ⟨hd3, ha3⟩ := dimAttrLoop_ok _ _ _ _ _ _ h
            exact ⟨sz, rfl, hnone, by rw [hd3, hd2, hdims],
              by rw [ha3, ha2, hattrs]⟩
      · rw [if_neg hvc] at h
        have hg := Except.ok.inj h
        subst hg
        exact ⟨sz, rfl, hnone, hdims, hattrs⟩

/-- C1: the size of every dimension created by the builder follows the
documented precedence: an explicit `size` key wins; otherwise a `dat`
key naming an array-valued data entry gives the array's element count;
otherwise a `dat` key naming a scalar data entry gives the scalar's
value; otherwise the dimension is created unlimited (`none`). -/
theorem c1_dimension_size_precedence :
    (∀ (data : List (String × PyVal)) (g : Group) (dn : String)
       (spec : List (String × PyVal)) (g' : Group),
      processDim data g dn spec = Except.ok g' →
      ∃ sz, resolveSize spec data = Except.ok sz ∧ alookup g'.dims dn = some sz) ∧
    (∀ (spec data : List (String × PyVal)) (v : PyVal),
      alookup spec "size" = some v →
      resolveSize spec data = Except.ok (some v)) ∧
    (∀ (spec data : List (String × PyVal)) (d : String) (l : List ℚ),
      alookup spec "size" = none → alookup spec "dat" = some (PyVal.str d) →
      alookup data d = some (PyVal.arr l) →
      resolveSize spec data = Except.ok (some (PyVal.num l.length))) ∧
    (∀ (spec data : List (String × PyVal)) (d : String) (q : ℚ),
      alookup spec "size" = none → alookup spec "dat" = some (PyVal.str d) →
      alookup data d = some (PyVal.num q) →
      resolveSize spec data = Except.ok (some (PyVal.num q))) ∧
    (∀ (spec data : List (String × PyVal)),
      alookup spec "size" = none → alookup spec "dat" = none →
      resolveSize spec data = Except.ok none) := by
  refine ⟨?_, ?_, ?_, ?_, ?_⟩
  · intro data g dn spec g' h
    obtain ⟨sz, hrs, hnone, hdims, _⟩ := processDim_ok h
    exact ⟨sz, hrs, by rw [hdims]; exact alookup_append_of_none _ _ _ hnone⟩
  · intro spec data v hs
    simp only [resolveSize, hs]
  · intro spec data d l hs hd hdat
    simp only [resolveSize, hs, hd, hdat]
  · intro spec data d q hs hd hdat
    simp only [resolveSize, hs, hd, hdat]
  · intro spec data hs hd
    simp only [resolveSize, hs, hd]

/-- Witness for C1 at concrete inputs: a `size` dimension of length 5
created by `processDim`, and each `resolveSize` precedence case
evaluated concretely. -/
theorem c1_dimension_size_precedence_witness :
    (∃ sz, resolveSize [("size", PyVal.num 5), ("var", PyVal.pybool false)] [] =
        Except.ok sz ∧
      alookup (Group.dims { dims := [("lat", some (PyVal.num 5))], vars := [], attrs := [] })
        "lat" = some sz) ∧
    resolveSize [("size", PyVal.num 5), ("var", PyVal.pybool false)] [] =
      Except.ok (some (PyVal.num 5)) ∧
    resolveSize [("dat", PyVal.str "x")] [("x", PyVal.arr [1, 2, 3])] =
      Except.ok (some (PyVal.num 3)) ∧
    resolveSize [("dat", PyVal.str "n")] [("n", PyVal.num 7)] =
      Except.ok (some (PyVal.num 7)) ∧
    resolveSize [("dtype", PyVal.str "float64")] [] = Except.ok none := by
  refine ⟨c1_dimension_size_precedence.1 [] emptyGroup "lat"
      [("size", PyVal.num 5), ("var", PyVal.pybool false)] _ (by rfl),
    c1_dimension_size_precedence.2.1 _ [] (PyVal.num 5) (by rfl),
    c1_dimension_size_precedence.2.2.1 _ _ "x" [1, 2, 3] (by rfl) (by rfl) (by rfl),
    c1_dimension_size_precedence.2.2.2.1 _ _ "n" 7 (by rfl) (by rfl) (by rfl),
    c1_dimension_size_precedence.2.2.2.2 _ [] (by rfl) (by rfl)⟩

/-! Lemmas for the variable loop. -/

theorem processDims_names :
    ∀ (l : List (String × List (String × PyVal))) (data : List (String × PyVal))
      (g g' : Group), processDims data g l = Except.ok g' →
      g'.dims.map Prod.fst = g.dims.map Prod.fst ++ l.map Prod.fst := by
  intro l
  induction l with
  | nil =>
    intro data g g' h
    rw [processDims] at h
    rw [← Except.ok.inj h]
    simp
  | cons p rest ih =>
    intro data g g' h
    rw [processDims] at h
    cases hpd : processDim data g p.1 p.2 with
    | error e =>
      rw [hpd] at h
      exact absurd h (by simp)
    | ok g1 =>
      rw [hpd] at h
      obtain ⟨sz, _, _, hdims, _⟩ := processDim_ok hpd
      have hrest := ih data g1 g' h
      rw [hrest, hdims]
      simp

theorem updateVar_mem {g : Group} {n : String} {f : NCVar → NCVar}
    (hf : ∀ v, (f v).name = v.name ∧ (f v).dims = v.dims)
    {v : NCVar} (hv : v ∈ g.vars) :
    ∃ v' ∈ (updateVar g n f).vars, v'.name = v.name ∧ v'.dims = v.dims := by
  refine ⟨if v.name = n then f v else v, ?_, ?_⟩
  · exact List.mem_map_of_mem _ hv
  · by_cases hn : v.name = n
    · rw [if_pos hn]
      exact (hf v).imp id id
    · rw [if_neg hn]
      exact ⟨rfl, rfl⟩

theorem updateVar_ok_mem {g : Group} {n : String} {f : NCVar → NCVar} {g' : Group}
    (h : Except.ok (ε := BuildErr) (updateVar g n f) = Except.ok g')
    (hf : ∀ v, (f v).name = v.name ∧ (f v).dims = v.dims)
    {v : NCVar} (hv : v ∈ g.vars) :
    ∃ v' ∈ g'.vars, v'.name = v.name ∧ v'.dims = v.dims := by
  have hg := Except.ok.inj h
  subst hg
  exact updateVar_mem hf hv

theorem dataWrite_mem {g : Group} {data : List (String × PyVal)} {vn : String}
    {dt : DType} {hd : Bool} {g' : Group}
    (h : dataWrite g data vn dt hd = Except.ok g')
    {v : NCVar} (hv : v ∈ g.vars) :
    ∃ v' ∈ g'.vars, v'.name = v.name ∧ v'.dims = v.dims := by
  rw [dataWrite] at h
  cases hl : alookup data vn with
  | none =>
    rw [hl] at h
    have hg := Except.ok.inj h
    subst hg
    exact ⟨v, hv, rfl, rfl⟩
  | some payload =>
    rw [hl] at h
    dsimp only [] at h
    by_cases hc : dt = DType.char
    · rw [if_pos hc] at h
      cases payload with
      | str s => exact updateVar_ok_mem h (fun v => ⟨rfl, rfl⟩) hv
      | num q => exact absurd h (by simp)
      | arr l => exact absurd h (by simp)
      | pybool b => exact absurd h (by simp)
      | strList l => exact absurd h (by simp)
    · rw [if_neg hc] at h
      by_cases hdim : hd = true
      · rw [if_pos hdim] at h
        by_cases hs : isStrDtype dt = true
        · rw [if_pos hs] at h
          cases payload with
          | arr l => exact updateVar_ok_mem h (fun v => ⟨rfl, rfl⟩) hv
          | num q => exact absurd h (by simp)
          | str s => exact absurd h (by simp)
          | pybool b => exact absurd h (by simp)
          | strList l => exact absurd h (by simp)
        · rw [if_neg hs] at h
          exact updateVar_ok_mem h (fun v => ⟨rfl, rfl⟩) hv
      · rw [if_neg hdim] at h
        exact updateVar_ok_mem h (fun v => ⟨rfl, rfl⟩) hv

theorem _pack_unpack_no_assertion {v : PyVal} {sf ao : ℚ} {r : BuildErr}
    (h : _pack_unpack v sf ao = Except.error r) :
    ∀ m, r ≠ BuildErr.assertionError m := by
  cases v with
  | num q => exact absurd h (by simp [_pack_unpack])
  | arr l => exact absurd h (by simp [_pack_unpack])
  | str s =>
    intro m
    have hr := Except.error.inj
      (h : Except.error (BuildErr.typeError "unsupported operand for pack_unpack") =
        Except.error r)
    subst hr
    simp
  | pybool b =>
    intro m
    have hr := Except.error.inj
      (h : Except.error (BuildErr.typeError "unsupported operand for pack_unpack") =
        Except.error r)
    subst hr
    simp
  | strList l =>
    intro m
    have hr := Except.error.inj
      (h : Except.error (BuildErr.typeError "unsupported operand for pack_unpack") =
        Except.error r)
    subst hr
    simp

theorem attrLoop_no_assertion :
    ∀ (l spec : List (String × PyVal)) (vn : String) (dt : DType)
      (acc : List (String × StoredAttr)) (warns : List String) (e : BuildErr),
      attrLoop spec vn dt acc warns l = Except.error e →
      ∀ m, e ≠ BuildErr.assertionError m := by
  intro l
  induction l with
  | nil =>
    intro spec vn dt acc warns e h
    rw [attrLoop] at h
    exact absurd h (by simp)
  | cons p rest ih =>
    intro spec vn dt acc warns e h
    rw [attrLoop] at h
    by_cases h1 : _NOT_ATTRS.contains p.1 = true
    · rw [if_pos h1] at h
      exact ih _ _ _ _ _ _ h
    · rw [if_neg h1] at h
      by_cases h2 : p.1 = "actual_range"
      · rw [if_pos h2] at h
        cases hsf : alookup spec "scale_factor" with
        | none =>
          rw [hsf] at h
          dsimp only [] at h
          exact ih _ _ _ _ _ _ h
        | some sfv =>
          rw [hsf] at h
          cases hao : alookup spec "add_offset" with
          | none =>
            rw [hao] at h
            dsimp only [] at h
            exact ih _ _ _ _ _ _ h
          | some aov =>
            rw [hao] at h
            dsimp only [] at h
            cases sfv <;> cases aov <;>
              try (have hr := Except.error.inj h
                   subst hr
                   intro m
                   simp)
            rename_i sf ao
            dsimp only [] at h
            cases hpu : _pack_unpack p.2 sf ao with
            | error e' =>
              rw [hpu] at h
              dsimp only [] at h
              have hr := Except.error.inj h
              subst hr
              exact _pack_unpack_no_assertion hpu
            | ok pv =>
              rw [hpu] at h
              dsimp only [] at h
              exact ih _ _ _ _ _ _ h
      · rw [if_neg h2] at h
        exact ih _ _ _ _ _ _ h

theorem _create_var_error {g : Group} {vn : String} {dt : DType} {ds : List String}
    {sp : List (String × PyVal)} {e : BuildErr}
    (h : _create_var g vn dt ds sp = Except.error e) :
    ∀ m, e ≠ BuildErr.assertionError m := by
  rw [_create_var] at h
  by_cases h1 : (g.vars.map NCVar.name).contains vn = true
  · rw [if_pos h1] at h
    intro m
    have hr := Except.error.inj h
    subst hr
    simp
  · rw [if_neg h1] at h
    by_cases h2 : (ds.all fun d => (alookup g.dims d).isSome) = true
    · rw [if_pos h2] at h
      exact absurd h (by simp)
    · rw [if_neg h2] at h
      intro m
      have hr := Except.error.inj h
      subst hr
      simp

theorem dataWrite_no_assertion {g : Group} {data : List (String × PyVal)}
    {vn : String} {dt : DType} {hd : Bool} {e : BuildErr}
    (h : dataWrite g data vn dt hd = Except.error e) :
    ∀ m, e ≠ BuildErr.assertionError m := by
  rw [dataWrite] at h
  cases hl : alookup data vn with
  | none =>
    rw [hl] at h
    exact absurd h (by simp)
  | some payload =>
    rw [hl] at h
    dsimp only [] at h
    by_cases hc : dt = DType.char
    · rw [if_pos hc] at h
      cases payload with
      | str s => exact absurd h (by simp)
      | num q =>
        intro m
        have hr := Except.error.inj h
        subst hr
        simp
      | arr l =>
        intro m
        have hr := Except.error.inj h
        subst hr
        simp
      | pybool b =>
        intro m
        have hr := Except.error.inj h
        subst hr
        simp
      | strList l =>
        intro m
        have hr := Except.error.inj h
        subst hr
        simp
    · rw [if_neg hc] at h
      by_cases hdim : hd = true
      · rw [if_pos hdim] at h
        by_cases hs : isStrDtype dt = true
        · rw [if_pos hs] at h
          cases payload with
          | arr l => exact absurd h (by simp)
          | num q =>
            intro m
            have hr := Except.error.inj h
            subst hr
            simp
          | str s =>
            intro m
            have hr := Except.error.inj h
            subst hr
            simp
          | pybool b =>
            intro m
            have hr := Except.error.inj h
            subst hr
            simp
          | strList l =>
            intro m
            have hr := Except.error.inj h
            subst hr
            simp
        · rw [if_neg hs] at h
          exact absurd h (by simp)
      · rw [if_neg hdim] at h
        exact absurd h (by simp)

/-- C2: for a variable declaring a `dim` list, `processVar` fails with
the schema assertion naming the variable exactly when some named
dimension is missing from the keys of `config["dimensions"]`; when all
named dimensions exist the variable is created over exactly those
dimensions; and the keys of `config["dimensions"]` are exactly the
dimension names the dimension-creation step adds to the group. -/
theorem c2_variable_dimension_check :
    ∀ (cfg : GroupConfig) (data : List (String × PyVal)) (fmt : String)
      (g : Group) (warns : List String) (varname : String)
      (spec : List (String × PyVal)) (ds : List String) (dtype : DType),
      alookup spec "dim" = some (PyVal.strList ds) →
      varDtype spec fmt = Except.ok dtype →
      ((∃ d ∈ ds, d ∉ cfg.nc_dims.map Prod.fst) ↔
        processVar cfg data fmt g warns varname spec =
          Except.error (BuildErr.assertionError (missingDimMsg varname))) ∧
      (∀ g' w, processVar cfg data fmt g warns varname spec = Except.ok (g', w) →
        ∃ v ∈ g'.vars, v.name = varname ∧ v.dims = ds) ∧
      (∀ g0 g1, processDims data g0 cfg.nc_dims = Except.ok g1 →
        g1.dims.map Prod.fst = g0.dims.map Prod.fst ++ cfg.nc_dims.map Prod.fst) := by
  intro cfg data fmt g warns varname spec ds dtype hdim hdt
  have hvd : varDims g (cfg.nc_vars.map Prod.fst) (cfg.nc_dims.map Prod.fst)
      data varname spec dtype =
      (if (ds.all fun d => (cfg.nc_dims.map Prod.fst).contains d) = true
       then Except.ok (g, ds, true)
       else Except.error (BuildErr.assertionError (missingDimMsg varname))) := by
    rw [varDims.eq_def, hdim]
  refine ⟨⟨?_, ?_⟩, ?_, fun g0 g1 h => processDims_names cfg.nc_dims data g0 g1 h⟩
  · intro hmiss
    have hall : (ds.all fun d => (cfg.nc_dims.map Prod.fst).contains d) = false := by
      rcases hmiss with ⟨d, hdmem, hnot⟩
      rcases Bool.eq_false_or_eq_true (ds.all fun d => (cfg.nc_dims.map Prod.fst).contains d)
        with ht | hf
      · exact absurd (by simpa using List.all_eq_true.mp ht d hdmem) hnot
      · exact hf
    rw [processVar.eq_def, hdt]
    dsimp only []
    rw [hvd, if_neg (by rw [hall]; simp)]
  · intro herr
    by_contra hnm
    push_neg at hnm
    have hall : (ds.all fun d => (cfg.nc_dims.map Prod.fst).contains d) = true := by
      rw [List.all_eq_true]
      intro d hdmem
      simpa using hnm d hdmem
    rw [processVar.eq_def, hdt] at herr
    dsimp only [] at herr
    rw [hvd, if_pos hall] at herr
    dsimp only [] at herr
    cases hcv : _create_var g varname dtype ds spec with
    | error e =>
      rw [hcv] at herr
      dsimp only [] at herr
      exact _create_var_error hcv _ (Except.error.inj herr)
    | ok g2 =>
      rw [hcv] at herr
      dsimp only [] at herr
      cases hal : attrLoop spec varname dtype [] warns spec with
      | error e =>
        rw [hal] at herr
        dsimp only [] at herr
        exact attrLoop_no_assertion _ _ _ _ _ _ _ hal _ (Except.error.inj herr)
      | ok aw =>
        rw [hal] at herr
        obtain ⟨attrs1, warns1⟩ := aw
        dsimp only [] at herr
        cases hdw : dataWrite
            (updateVar g2 varname fun v => { v with attrs := attrs1 })
            data varname dtype true with
        | error e =>
          rw [hdw] at herr
          dsimp only [] at herr
          exact dataWrite_no_assertion hdw _ (Except.error.inj herr)
        | ok g4 =>
          rw [hdw] at herr
          exact absurd herr (by simp)
  · intro g' w hok
    rw [processVar.eq_def, hdt] at hok
    dsimp only [] at hok
    rw [hvd] at hok
    by_cases hall : (ds.all fun d => (cfg.nc_dims.map Prod.fst).contains d) = true
    · rw [if_pos hall] at hok
      dsimp only [] at hok
      cases hcv : _create_var g varname dtype ds spec with
      | error e =>
        rw [hcv] at hok
        exact absurd hok (by simp)
      | ok g2 =>
        rw [hcv] at hok
        dsimp only [] at hok
        obtain ⟨_, _, hvars⟩ := _create_var_ok hcv
        have hv0 : ({ name := varname, dtype := dtype, dims := ds,
                      opts := spec.filter (fun p => _NC4_OPTIONS.contains p.1),
                      attrs := [], writes := [] } : NCVar) ∈ g2.vars := by
          rw [hvars]
          simp
        cases hal : attrLoop spec varname dtype [] warns spec with
        | error e =>
          rw [hal] at hok
          exact absurd hok (by simp)
        | ok aw =>
          rw [hal] at hok
          obtain ⟨attrs1, warns1⟩ := aw
          dsimp only [] at hok
          cases hdw : dataWrite
              (updateVar g2 varname fun v => { v with attrs := attrs1 })
              data varname dtype true with
          | error e =>
            rw [hdw] at hok
            exact absurd hok (by simp)
          | ok g4 =>
            rw [hdw] at hok
            dsimp only [] at hok
            have hpair := Except.ok.inj hok
            have hg4 : g4 = g' := congrArg Prod.fst hpair
            obtain ⟨v1, hv1mem, hname1, hdims1⟩ :=
              updateVar_mem (n := varname)
                (f := fun v => { v with attrs := attrs1 }) (fun v => ⟨rfl, rfl⟩) hv0
            obtain ⟨v2, hv2mem, hname2, hdims2⟩ := dataWrite_mem hdw hv1mem
            rw [hg4] at hv2mem
            exact ⟨v2, hv2mem, by rw [hname2, hname1], by rw [hdims2, hdims1]⟩
    · rw [if_neg hall] at hok
      exact absurd hok (by simp)

/-- Witness for C2 at concrete inputs: a variable naming an undeclared
dimension `bogus` fails with the schema assertion, and the
dimension-creation step of a one-dimension configuration yields exactly
that dimension name. -/
theorem c2_variable_dimension_check_witness :
    processVar
      { attributes := none,
        nc_dims := [("lat", [("size", PyVal.num 2), ("var", PyVal.pybool false)])],
        nc_vars := [("temp", [("dtype", PyVal.str "float32"),
                              ("dim", PyVal.strList ["bogus"])])] }
      [] "NETCDF4" emptyGroup [] "temp"
      [("dtype", PyVal.str "float32"), ("dim", PyVal.strList ["bogus"])] =
      Except.error (BuildErr.assertionError (missingDimMsg "temp")) ∧
    (Group.dims { dims := [("lat", some (PyVal.num 2))], vars := [], attrs := [] }).map
        Prod.fst =
      (Group.dims emptyGroup).map Prod.fst ++
        [("lat", [("size", PyVal.num 2), ("var", PyVal.pybool false)])].map Prod.fst := by
  have hmain := c2_variable_dimension_check
    { attributes := none,
      nc_dims := [("lat", [("size", PyVal.num 2), ("var", PyVal.pybool false)])],
      nc_vars := [("temp", [("dtype", PyVal.str "float32"),
                            ("dim", PyVal.strList ["bogus"])])] }
    [] "NETCDF4" emptyGroup [] "temp"
    [("dtype", PyVal.str "float32"), ("dim", PyVal.strList ["bogus"])]
    ["bogus"] DType.f32 (by rfl) (by rfl)
  refine ⟨hmain.1.mp ⟨"bogus", by decide, by decide⟩, ?_⟩
  exact hmain.2.2 emptyGroup
    { dims := [("lat", some (PyVal.num 2))], vars := [], attrs := [] } (by rfl)

/-- C4: the code's guard for the synthesized string dimension checks the
name against `nc_vars` (the configuration's variables mapping) instead
of the group's dimensions, so a second string variable of the same
length repeats `createDimension("strdim03", 3)` and the build fails
with a duplicate-dimension storage error; a single string variable
works as documented (a `strdim03` dimension of length 3 and
character-by-character writes). -/
theorem c4_duplicate_string_dimension :
    _add_to_group emptyGroup [("a", PyVal.str "ABC"), ("b", PyVal.str "XYZ")]
        { attributes := none, nc_dims := [],
          nc_vars := [("a", [("dtype", PyVal.str "str")]),
                      ("b", [("dtype", PyVal.str "str")])] } "NETCDF3_CLASSIC" =
      Except.error (BuildErr.dupDimension "strdim03") ∧
    _add_to_group emptyGroup [("name", PyVal.str "ABC")]
        { attributes := none, nc_dims := [],
          nc_vars := [("name", [("dtype", PyVal.str "str")])] } "NETCDF3_CLASSIC" =
      Except.ok ({ dims := [("strdim03", some (PyVal.num 3))],
                   vars := [{ name := "name", dtype := DType.char,
                              dims := ["strdim03"], opts := [], attrs := [],
                              writes := [WriteOp.idx 0 (PyVal.str "A"),
                                         WriteOp.idx 1 (PyVal.str "B"),
                                         WriteOp.idx 2 (PyVal.str "C")] }],
                   attrs := [] }, []) := by
  exact ⟨by decide, by decide⟩

/-- C7: when a variable spec carries `actual_range` and both
`scale_factor` and `add_offset` are numeric entries of the same spec,
the attribute loop stores the pack-then-unpack transform of the value
(then coerced like any attribute) and emits no warning at this step;
when either key is absent the loop emits the non-fatal warning, stores
the raw value through the same coercion path, and continues with the
remaining attributes. -/
theorem c7_actual_range_pack_or_warn :
    ∀ (spec : List (String × PyVal)) (varname : String) (dtype : DType)
      (acc : List (String × StoredAttr)) (warns : List String)
      (rest : List (String × PyVal)) (v : PyVal),
      (∀ (sf ao : ℚ) (pv : PyVal × DType),
        alookup spec "scale_factor" = some (PyVal.num sf) →
        alookup spec "add_offset" = some (PyVal.num ao) →
        _pack_unpack v sf ao = Except.ok pv →
        attrLoop spec varname dtype acc warns (("actual_range", v) :: rest) =
          attrLoop spec varname dtype
            (_add_attribute acc "actual_range" pv.1 dtype) warns rest) ∧
      ((alookup spec "scale_factor" = none ∨ alookup spec "add_offset" = none) →
        attrLoop spec varname dtype acc warns (("actual_range", v) :: rest) =
          attrLoop spec varname dtype (_add_attribute acc "actual_range" v dtype)
            (warns ++ [scaleWarnMsg varname]) rest) := by
  intro spec varname dtype acc warns rest v
  constructor
  · intro sf ao pv hsf hao hpu
    rw [attrLoop]
    dsimp only []
    rw [if_neg (by decide), if_pos rfl, hsf, hao]
    dsimp only []
    rw [hpu]
  · intro h
    rw [attrLoop]
    dsimp only []
    rw [if_neg (by decide), if_pos rfl]
    rcases h with hsf | hao
    · rw [hsf]
    · cases hsf2 : alookup spec "scale_factor" with
      | none => rfl
      | some sfv => rw [hao]

/-- Witness for C7 at concrete inputs: with scale 2 and offset 1 the
transform is applied to `actual_range`, and without them the warning
path stores the raw value. -/
theorem c7_actual_range_pack_or_warn_witness :
    attrLoop [("scale_factor", PyVal.num 2), ("add_offset", PyVal.num 1),
              ("actual_range", PyVal.arr [0, 10])] "temp" DType.i16 [] []
        [("actual_range", PyVal.arr [0, 10])] =
      attrLoop [("scale_factor", PyVal.num 2), ("add_offset", PyVal.num 1),
                ("actual_range", PyVal.arr [0, 10])] "temp" DType.i16
        (_add_attribute [] "actual_range" (PyVal.arr (packUnpackL [0, 10] 2 1)) DType.i16)
        [] [] ∧
    attrLoop [("actual_range", PyVal.arr [0, 10])] "temp" DType.i16 [] []
        [("actual_range", PyVal.arr [0, 10])] =
      attrLoop [("actual_range", PyVal.arr [0, 10])] "temp" DType.i16
        (_add_attribute [] "actual_range" (PyVal.arr [0, 10]) DType.i16)
        [scaleWarnMsg "temp"] [] := by
  constructor
  · exact (c7_actual_range_pack_or_warn _ "temp" DType.i16 [] []
      [] (PyVal.arr [0, 10])).1 2 1
      (PyVal.arr (packUnpackL [0, 10] 2 1), DType.f32) (by rfl) (by rfl) (by rfl)
  · exact (c7_actual_range_pack_or_warn _ "temp" DType.i16 [] []
      [] (PyVal.arr [0, 10])).2 (Or.inl (by rfl))

/-! Lemmas for the reserved-key invariant. -/

theorem _add_attribute_attrsOk {acc : List (String × StoredAttr)} {k : String}
    {v : PyVal} {dt : DType} (hacc : attrsOk acc)
    (hk : _NOT_ATTRS.contains k = false) :
    attrsOk (_add_attribute acc k v dt) := by
  rw [_add_attribute]
  exact mem_setAssoc hacc hk

theorem updateVar_varsOk {g : Group} {n : String} {f : NCVar → NCVar}
    (hf : ∀ v, attrsOk v.attrs → attrsOk (f v).attrs) (hg : varsOk g) :
    varsOk (updateVar g n f) := by
  intro v hv
  simp only [updateVar, List.mem_map] at hv
  obtain ⟨w, hw, hmap⟩ := hv
  subst hmap
  by_cases hn : w.name = n
  · rw [if_pos hn]
    exact hf w (hg w hw)
  · rw [if_neg hn]
    exact hg w hw

theorem dataWrite_state {g : Group} {data : List (String × PyVal)} {vn : String}
    {dt : DType} {hd : Bool} {g' : Group}
    (h : dataWrite g data vn dt hd = Except.ok g') (hg : varsOk g) :
    varsOk g' ∧ g'.attrs = g.attrs := by
  rw [dataWrite] at h
  cases hl : alookup data vn with
  | none =>
    rw [hl] at h
    have hgg := Except.ok.inj h
    subst hgg
    exact ⟨hg, rfl⟩
  | some payload =>
    rw [hl] at h
    dsimp only [] at h
    by_cases hc : dt = DType.char
    · rw [if_pos hc] at h
      cases payload with
      | str s =>
        have hgg := Except.ok.inj h
        subst hgg
        exact ⟨updateVar_varsOk (fun v hv => hv) hg, rfl⟩
      | num q => exact absurd h (by simp)
      | arr l => exact absurd h (by simp)
      | pybool b => exact absurd h (by simp)
      | strList l => exact absurd h (by simp)
    · rw [if_neg hc] at h
      by_cases hdim : hd = true
      · rw [if_pos hdim] at h
        by_cases hs : isStrDtype dt = true
        · rw [if_pos hs] at h
          cases payload with
          | arr l =>
            have hgg := Except.ok.inj h
            subst hgg
            exact ⟨updateVar_varsOk (fun v hv => hv) hg, rfl⟩
          | num q => exact absurd h (by simp)
          | str s => exact absurd h (by simp)
          | pybool b => exact absurd h (by simp)
          | strList l => exact absurd h (by simp)
        · rw [if_neg hs] at h
          have hgg := Except.ok.inj h
          subst hgg
          exact ⟨updateVar_varsOk (fun v hv => hv) hg, rfl⟩
      · rw [if_neg hdim] at h
        have hgg := Except.ok.inj h
        subst hgg
        exact ⟨updateVar_varsOk (fun v hv => hv) hg, rfl⟩

theorem dimAttrLoop_varsOk :
    ∀ (l : List (String × PyVal)) (g g' : Group) (dn : String) (dt : DType)
      (data : List (String × PyVal)),
      dimAttrLoop g dn dt data l = Except.ok g' → varsOk g → varsOk g' := by
  intro l
  induction l with
  | nil =>
    intro g g' dn dt data h hg
    rw [dimAttrLoop] at h
    rw [← Except.ok.inj h]
    exact hg
  | cons p rest ih =>
    intro g g' dn dt data h hg
    rw [dimAttrLoop] at h
    by_cases h1 : _NOT_ATTRS.contains p.1 = true
    · rw [if_pos h1] at h
      by_cases h2 : p.1 = "dat"
      · rw [if_pos h2] at h
        cases hv : p.2 <;> rw [hv] at h <;> try simp at h
        rename_i s
        cases hl : alookup data s with
        | none =>
          rw [hl] at h
          simp at h
        | some payload =>
          rw [hl] at h
          exact ih _ _ _ _ _ h (updateVar_varsOk (fun v hv => hv) hg)
      · rw [if_neg h2] at h
        exact ih _ _ _ _ _ h hg
    · rw [if_neg h1] at h
      have hk : _NOT_ATTRS.contains p.1 = false := by simpa using h1
      exact ih _ _ _ _ _ h
        (updateVar_varsOk (fun v hv => _add_attribute_attrsOk hv hk) hg)

theorem attrLoop_attrsOk :
    ∀ (l spec : List (String × PyVal)) (vn : String) (dt : DType)
      (acc : List (String × StoredAttr)) (warns : List String)
      (res : List (String × StoredAttr) × List String),
      attrLoop spec vn dt acc warns l = Except.ok res → attrsOk acc →
      attrsOk res.1 := by
  intro l
  induction l with
  | nil =>
    intro spec vn dt acc warns res h hacc
    rw [attrLoop] at h
    rw [← Except.ok.inj h]
    exact hacc
  | cons p rest ih =>
    intro spec vn dt acc warns res h hacc
    rw [attrLoop] at h
    by_cases h1 : _NOT_ATTRS.contains p.1 = true
    · rw [if_pos h1] at h
      exact ih _ _ _ _ _ _ h hacc
    · rw [if_neg h1] at h
      have hk : _NOT_ATTRS.contains p.1 = false := by simpa using h1
      by_cases h2 : p.1 = "actual_range"
      · rw [if_pos h2] at h
        cases hsf : alookup spec "scale_factor" with
        | none =>
          rw [hsf] at h
          dsimp only [] at h
          exact ih _ _ _ _ _ _ h (_add_attribute_attrsOk hacc hk)
        | some sfv =>
          rw [hsf] at h
          cases hao : alookup spec "add_offset" with
          | none =>
            rw [hao] at h
            dsimp only [] at h
            exact ih _ _ _ _ _ _ h (_add_attribute_attrsOk hacc hk)
          | some aov =>
            rw [hao] at h
            dsimp only [] at h
            cases sfv with
            | num sf =>
              cases aov with
              | num ao =>
                dsimp only [] at h
                cases hpu : _pack_unpack p.2 sf ao with
                | error e =>
                  rw [hpu] at h
                  exact absurd h (by simp)
                | ok pv =>
                  rw [hpu] at h
                  dsimp only [] at h
                  exact ih _ _ _ _ _ _ h (_add_attribute_attrsOk hacc hk)
              | arr l2 => exact absurd h (by simp)
              | str s2 => exact absurd h (by simp)
              | pybool b2 => exact absurd h (by simp)
              | strList l2 => exact absurd h (by simp)
            | arr l1 => exact absurd h (by simp)
            | str s1 => exact absurd h (by simp)
            | pybool b1 => exact absurd h (by simp)
            | strList l1 => exact absurd h (by simp)
      · rw [if_neg h2] at h
        exact ih _ _ _ _ _ _ h (_add_attribute_attrsOk hacc hk)

theorem varDims_ok_state {g : Group} {cv dn : List String}
    {data : List (String × PyVal)} {vn : String}
    {spec : List (String × PyVal)} {dt : DType} {g1 : Group} {ds : List String}
    {hd : Bool}
    (h : varDims g cv dn data vn spec dt = Except.ok (g1, ds, hd)) :
    g1.vars = g.vars ∧ g1.attrs = g.attrs := by
  rw [varDims.eq_def] at h
  cases hdim : alookup spec "dim" with
  | some val =>
    rw [hdim] at h
    cases val with
    | strList l =>
      dsimp only [] at h
      by_cases hall : (l.all fun d => dn.contains d) = true
      · rw [if_pos hall] at h
        have h2 := Except.ok.inj h
        rw [Prod.mk.injEq, Prod.mk.injEq] at h2
        rw [← h2.1]
        exact ⟨rfl, rfl⟩
      · rw [if_neg hall] at h
        exact absurd h (by simp)
    | num q => exact absurd h (by simp)
    | arr l => exact absurd h (by simp)
    | str s => exact absurd h (by simp)
    | pybool b => exact absurd h (by simp)
  | none =>
    rw [hdim] at h
    dsimp only [] at h
    by_cases hc : dt = DType.char
    · rw [if_pos hc] at h
      cases hl : alookup data vn with
      | none =>
        rw [hl] at h
        exact absurd h (by simp)
      | some payload =>
        rw [hl] at h
        dsimp only [] at h
        cases hlen : pyLen payload with
        | error e =>
          rw [hlen] at h
          exact absurd h (by simp)
        | ok size =>
          rw [hlen] at h
          dsimp only [] at h
          by_cases hcv : cv.contains (strdimName size) = true
          · rw [if_pos hcv] at h
            have h2 := Except.ok.inj h
            rw [Prod.mk.injEq, Prod.mk.injEq] at h2
            rw [← h2.1]
            exact ⟨rfl, rfl⟩
          · rw [if_neg hcv] at h
            cases hcd : createDimension g (strdimName size) (some (PyVal.num size)) with
            | error e =>
              rw [hcd] at h
              exact absurd h (by simp)
            | ok gg =>
              rw [hcd] at h
              dsimp only [] at h
              have h2 := Except.ok.inj h
              rw [Prod.mk.injEq, Prod.mk.injEq] at h2
              obtain ⟨_, _, hv, ha⟩ := createDimension_ok hcd
              rw [← h2.1]
              exact ⟨hv, ha⟩
    · rw [if_neg hc] at h
      have h2 := Except.ok.inj h
      rw [Prod.mk.injEq, Prod.mk.injEq] at h2
      rw [← h2.1]
      exact ⟨rfl, rfl⟩

theorem varsOk_of_create_var {g1 g2 : Group} {vn : String} {dt : DType}
    {ds : List String} {sp : List (String × PyVal)}
    (h : _create_var g1 vn dt ds sp = Except.ok g2) (hg : varsOk g1) :
    varsOk g2 := by
  obtain ⟨_, _, hvars⟩ := _create_var_ok h
  intro v hv
  rw [hvars] at hv
  rcases List.mem_append.mp hv with hmem | hmem
  · exact hg v hmem
  · rw [List.mem_singleton] at hmem
    subst hmem
    intro a ha
    exact absurd ha (by simp)

theorem processDim_varsOk {data : List (String × PyVal)} {g : Group}
    {dn : String} {spec : List (String × PyVal)} {g' : Group}
    (h : processDim data g dn spec = Except.ok g') (hg : varsOk g) :
    varsOk g' := by
  rw [processDim] at h
  cases hrs : resolveSize spec data with
  | error e =>
    rw [hrs] at h
    exact absurd h (by simp)
  | ok sz =>
    rw [hrs] at h
    dsimp only [] at h
    cases hcd : createDimension g dn sz with
    | error e =>
      rw [hcd] at h
      exact absurd h (by simp)
    | ok g1 =>
      rw [hcd] at h
      dsimp only [] at h
      obtain ⟨_, _, hvars1, _⟩ := createDimension_ok hcd
      have hg1 : varsOk g1 := by
        intro v hv
        rw [hvars1] at hv
        exact hg v hv
      by_cases hvc : dimVarCreate spec = true
      · rw [if_pos hvc] at h
        cases hdt : dimDtype spec with
        | error e =>
          rw [hdt] at h
          exact absurd h (by simp)
        | ok dtype =>
          rw [hdt] at h
          dsimp only [] at h
          cases hcv : _create_var g1 dn dtype [dn] spec with
          | error e =>
            rw [hcv] at h
            exact absurd h (by simp)
          | ok g2 =>
            rw [hcv] at h
            dsimp only [] at h
            exact dimAttrLoop_varsOk _ _ _ _ _ _ h (varsOk_of_create_var hcv hg1)
      · rw [if_neg hvc] at h
        have hgg := Except.ok.inj h
        subst hgg
        exact hg1

theorem processDims_state :
    ∀ (l : List (String × List (String × PyVal))) (data : List (String × PyVal))
      (g g' : Group), processDims data g l = Except.ok g' → varsOk g →
      varsOk g' ∧ g'.attrs = g.attrs := by
  intro l
  induction l with
  | nil =>
    intro data g g' h hg
    rw [processDims] at h
    rw [← Except.ok.inj h]
    exact ⟨hg, rfl⟩
  | cons p rest ih =>
    intro data g g' h hg
    rw [processDims] at h
    cases hpd : processDim data g p.1 p.2 with
    | error e =>
      rw [hpd] at h
      exact absurd h (by simp)
    | ok g1 =>
      rw [hpd] at h
      obtain ⟨_, _, _, _, hattrs⟩ := processDim_ok hpd
      obtain ⟨hv, ha⟩ := ih data g1 g' h (processDim_varsOk hpd hg)
      exact ⟨hv, by rw [ha, hattrs]⟩

theorem processVar_ok_state {cfg : GroupConfig} {data : List (String × PyVal)}
    {fmt : String} {g : Group} {warns : List String} {vn : String}
    {spec : List (String × PyVal)} {g' : Group} {w : List String}
    (h : processVar cfg data fmt g warns vn spec = Except.ok (g', w))
    (hg : varsOk g) : varsOk g' ∧ g'.attrs = g.attrs := by
  rw [processVar.eq_def] at h
  cases hdt : varDtype spec fmt with
  | error e =>
    rw [hdt] at h
    exact absurd h (by simp)
  | ok dtype =>
    rw [hdt] at h
    dsimp only [] at h
    cases hvd : varDims g (cfg.nc_vars.map Prod.fst) (cfg.nc_dims.map Prod.fst)
        data vn spec dtype with
    | error e =>
      rw [hvd] at h
      exact absurd h (by simp)
    | ok t =>
      rw [hvd] at h
      obtain ⟨g1, ds, hd⟩ := t
      dsimp only [] at h
      obtain ⟨hvars1, hattrs1⟩ := varDims_ok_state hvd
      have hg1 : varsOk g1 := by
        intro v hv
        rw [hvars1] at hv
        exact hg v hv
      cases hcv : _create_var g1 vn dtype ds spec with
      | error e =>
        rw [hcv] at h
        exact absurd h (by simp)
      | ok g2 =>
        rw [hcv] at h
        dsimp only [] at h
        obtain ⟨_, hattrs2, _⟩ := _create_var_ok hcv
        have hg2 : varsOk g2 := varsOk_of_create_var hcv hg1
        cases hal : attrLoop spec vn dtype [] warns spec with
        | error e =>
          rw [hal] at h
          exact absurd h (by simp)
        | ok aw =>
          rw [hal] at h
          obtain ⟨attrs1, warns1⟩ := aw
          dsimp only [] at h
          have hattrsOk1 : attrsOk attrs1 :=
            attrLoop_attrsOk _ _ _ _ _ _ _ hal (fun a ha => absurd ha (by simp))
          have hg3 : varsOk (updateVar g2 vn fun v => { v with attrs := attrs1 }) :=
            updateVar_varsOk (fun v hv => hattrsOk1) hg2
          cases hdw : dataWrite (updateVar g2 vn fun v => { v with attrs := attrs1 })
              data vn dtype hd with
          | error e =>
            rw [hdw] at h
            exact absurd h (by simp)
          | ok g4 =>
            rw [hdw] at h
            dsimp only [] at h
            have hpair := Except.ok.inj h
            rw [Prod.mk.injEq] at hpair
            obtain ⟨hvOk, hatt⟩ := dataWrite_state hdw hg3
            constructor
            · rw [← hpair.1]
              exact hvOk
            · rw [← hpair.1, hatt]
              show g2.attrs = g.attrs
              rw [hattrs2, hattrs1]

theorem processVars_state :
    ∀ (l : List (String × List (String × PyVal))) (cfg : GroupConfig)
      (data : List (String × PyVal)) (fmt : String) (g : Group)
      (warns : List String) (g' : Group) (w : List String),
      processVars cfg data fmt g warns l = Except.ok (g', w) → varsOk g →
      varsOk g' ∧ g'.attrs = g.attrs := by
  intro l
  induction l with
  | nil =>
    intro cfg data fmt g warns g' w h hg
    rw [processVars] at h
    have hpair := Except.ok.inj h
    rw [Prod.mk.injEq] at hpair
    rw [← hpair.1]
    exact ⟨hg, rfl⟩
  | cons p rest ih =>
    intro cfg data fmt g warns g' w h hg
    rw [processVars] at h
    cases hpv : processVar cfg data fmt g warns p.1 p.2 with
    | error e =>
      rw [hpv] at h
      exact absurd h (by simp)
    | ok gw =>
      rw [hpv] at h
      obtain ⟨g1, warns1⟩ := gw
      dsimp only [] at h
      obtain ⟨hv1, ha1⟩ := processVar_ok_state hpv hg
      obtain ⟨hv, ha⟩ := ih cfg data fmt g1 warns1 g' w h hv1
      exact ⟨hv, by rw [ha, ha1]⟩

/-- C8: in any successful group build starting from a group whose
variables carry no reserved-key attributes, no variable of the result
carries an attribute named by a reserved structural key or
storage-encoding option (`_NOT_ATTRS`), and the group's own attribute
list is exactly the one produced by the `config["attributes"]` step —
no dimension-spec or variable-spec key is copied onto it. -/
theorem c8_reserved_keys_not_attributes :
    ∀ (g : Group) (data : List (String × PyVal)) (cfg : GroupConfig)
      (fmt : String) (g' : Group) (ws : List String),
      _add_to_group g data cfg fmt = Except.ok (g', ws) → varsOk g →
      varsOk g' ∧ g'.attrs = (applyGroupAttrs g cfg.attributes).attrs := by
  intro g data cfg fmt g' ws h hg
  rw [_add_to_group.eq_def] at h
  dsimp only [] at h
  cases hpd : processDims data (applyGroupAttrs g cfg.attributes) cfg.nc_dims with
  | error e =>
    rw [hpd] at h
    exact absurd h (by simp)
  | ok g1 =>
    rw [hpd] at h
    have hg0 : varsOk (applyGroupAttrs g cfg.attributes) := by
      cases ho : cfg.attributes with
      | none => exact hg
      | some l => exact hg
    obtain ⟨hv1, ha1⟩ := processDims_state _ _ _ _ hpd hg0
    obtain ⟨hv2, ha2⟩ := processVars_state _ _ _ _ _ _ _ _ h hv1
    exact ⟨hv2, by rw [ha2, ha1]⟩

/-- Witness for C8 at a concrete build: a dimension with a `units`
attribute and a variable with reserved keys `dtype`, `dim` and a free
`units` key — the resulting variable carries only the `units`
attribute and the group attribute list comes from
`config["attributes"]` alone. -/
theorem c8_reserved_keys_not_attributes_witness :
    varsOk { dims := [("lat", some (PyVal.num 2))],
             vars := [{ name := "temp", dtype := DType.f32, dims := ["lat"],
                        opts := [], attrs := [("units", (PyVal.str "K", none))],
                        writes := [] }],
             attrs := [("note", PyVal.str "hi")] } ∧
    Group.attrs { dims := [("lat", some (PyVal.num 2))],
                  vars := [{ name := "temp", dtype := DType.f32, dims := ["lat"],
                             opts := [], attrs := [("units", (PyVal.str "K", none))],
                             writes := [] }],
                  attrs := [("note", PyVal.str "hi")] } =
      (applyGroupAttrs emptyGroup (some [("note", PyVal.str "hi")])).attrs := by
  exact c8_reserved_keys_not_attributes emptyGroup []
    { attributes := some [("note", PyVal.str "hi")],
      nc_dims := [("lat", [("size", PyVal.num 2), ("var", PyVal.pybool false)])],
      nc_vars := [("temp", [("dtype", PyVal.str "float32"),
                            ("dim", PyVal.strList ["lat"]),
                            ("units", PyVal.str "K")])] }
    "NETCDF4" _ [] (by decide) (fun v hv => absurd hv (by simp [emptyGroup]))

/-! Lemmas and theorems for the top-level operation. -/

/-- C3 counterexample: with the target present and `clobber` true, an
invalid format still raises the `ValueError`, but the pre-existing file
has already been deleted — the filesystem is changed by a run that
ends in a format validation error, contradicting the claim that every
precondition error is raised before any mutation. -/
theorem c3_counterexample_clobber_then_format_error :
    (ncgenRun [("out.nc", 7)] "out.nc"
        { entries := [], global_attributes := none, groups := [] }
        (ConfigSource.dict
          { global_attributes := [], groups := none,
            root := { attributes := none, nc_dims := [], nc_vars := [] } })
        "NOT_A_FORMAT" true "ts") =
      ([], Except.error (NcErr.invalidFormat "NOT_A_FORMAT")) ∧
    ([] : FS) ≠ [("out.nc", 7)] := by
  exact ⟨by decide, by decide⟩

/-- C3 amended: precondition errors are raised before the dataset file
is created; the existence error and, when the target does not already
exist, the format and extension errors leave the filesystem unchanged;
but when the target exists and `clobber` is true, the target has
already been removed when a format or extension error is raised. -/
theorem c3_amended_precondition_errors :
    (∀ (fs : FS) (f : String) (data : DataMap) (cfg : ConfigSource)
       (fmt ts : String), fsExists fs f = true →
      ncgenRun fs f data cfg fmt false ts = (fs, Except.error (NcErr.fileExists f))) ∧
    (∀ (fs : FS) (f : String) (data : DataMap) (cfg : ConfigSource)
       (fmt : String) (clobber : Bool) (ts : String), fsExists fs f = false →
      _NC_FMT.contains fmt = false →
      ncgenRun fs f data cfg fmt clobber ts =
        (fs, Except.error (NcErr.invalidFormat fmt))) ∧
    (∀ (fs : FS) (f : String) (data : DataMap) (c : NcConfig) (path : String)
       (fmt : String) (clobber : Bool) (ts : String), fsExists fs f = false →
      _NC_FMT.contains fmt = true →
      ¬(extOf path = "json" ∨ extOf path = "toml") →
      ncgenRun fs f data (ConfigSource.file path c) fmt clobber ts =
        (fs, Except.error (NcErr.badExtension (extOf path)))) ∧
    (∀ (fs : FS) (f : String) (data : DataMap) (cfg : ConfigSource)
       (fmt ts : String), fsExists fs f = true →
      _NC_FMT.contains fmt = false →
      ncgenRun fs f data cfg fmt true ts =
        (fsRemove fs f, Except.error (NcErr.invalidFormat fmt))) ∧
    (∀ (fs : FS) (f : String) (data : DataMap) (c : NcConfig) (path : String)
       (fmt ts : String), fsExists fs f = true →
      _NC_FMT.contains fmt = true →
      ¬(extOf path = "json" ∨ extOf path = "toml") →
      ncgenRun fs f data (ConfigSource.file path c) fmt true ts =
        (fsRemove fs f, Except.error (NcErr.badExtension (extOf path)))) := by
  refine ⟨?_, ?_, ?_, ?_, ?_⟩
  · intro fs f data cfg fmt ts hex
    rw [ncgenRun, if_pos hex, if_neg (by decide)]
  · intro fs f data cfg fmt clobber ts hex hfmt
    rw [ncgenRun, if_neg (by rw [hex]; decide), ncgenOpen.eq_def, if_neg (by rw [hfmt]; decide)]
  · intro fs f data c path fmt clobber ts hex hfmt hext
    rw [ncgenRun, if_neg (by rw [hex]; decide), ncgenOpen.eq_def, if_pos hfmt]
    dsimp only []
    rw [if_neg hext]
  · intro fs f data cfg fmt ts hex hfmt
    rw [ncgenRun, if_pos hex, if_pos rfl, ncgenOpen.eq_def, if_neg (by rw [hfmt]; decide)]
  · intro fs f data c path fmt ts hex hfmt hext
    rw [ncgenRun, if_pos hex, if_pos rfl, ncgenOpen.eq_def, if_pos hfmt]
    dsimp only []
    rw [if_neg hext]

/-- Witness for the amended C3 at concrete inputs: each precondition
error evaluated on a one-file filesystem. -/
theorem c3_amended_precondition_errors_witness :
    ncgenRun [("out.nc", 7)] "out.nc"
        { entries := [], global_attributes := none, groups := [] }
        (ConfigSource.dict
          { global_attributes := [], groups := none,
            root := { attributes := none, nc_dims := [], nc_vars := [] } })
        "NETCDF4" false "ts" =
      ([("out.nc", 7)], Except.error (NcErr.fileExists "out.nc")) ∧
    ncgenRun [] "new.nc"
        { entries := [], global_attributes := none, groups := [] }
        (ConfigSource.dict
          { global_attributes := [], groups := none,
            root := { attributes := none, nc_dims := [], nc_vars := [] } })
        "BAD" false "ts" =
      ([], Except.error (NcErr.invalidFormat "BAD")) ∧
    ncgenRun [] "new.nc"
        { entries := [], global_attributes := none, groups := [] }
        (ConfigSource.file "cfg.yaml"
          { global_attributes := [], groups := none,
            root := { attributes := none, nc_dims := [], nc_vars := [] } })
        "NETCDF4" false "ts" =
      ([], Except.error (NcErr.badExtension (extOf "cfg.yaml"))) ∧
    ncgenRun [("out.nc", 7)] "out.nc"
        { entries := [], global_attributes := none, groups := [] }
        (ConfigSource.dict
          { global_attributes := [], groups := none,
            root := { attributes := none, nc_dims := [], nc_vars := [] } })
        "BAD" true "ts" =
      (fsRemove [("out.nc", 7)] "out.nc", Except.error (NcErr.invalidFormat "BAD")) ∧
    ncgenRun [("out.nc", 7)] "out.nc"
        { entries := [], global_attributes := none, groups := [] }
        (ConfigSource.file "cfg.yaml"
          { global_attributes := [], groups := none,
            root := { attributes := none, nc_dims := [], nc_vars := [] } })
        "NETCDF4" true "ts" =
      (fsRemove [("out.nc", 7)] "out.nc",
        Except.error (NcErr.badExtension (extOf "cfg.yaml"))) := by
  refine ⟨c3_amended_precondition_errors.1 _ _ _ _ _ _ (by decide),
    c3_amended_precondition_errors.2.1 _ _ _ _ _ _ _ (by decide) (by decide),
    c3_amended_precondition_errors.2.2.1 _ _ _ _ _ _ _ _ (by decide) (by decide)
      (by decide),
    c3_amended_precondition_errors.2.2.2.1 _ _ _ _ _ _ (by decide) (by decide),
    c3_amended_precondition_errors.2.2.2.2 _ _ _ _ _ _ _ (by decide) (by decide)
      (by decide)⟩

theorem alookup_fsRemove (fs : FS) (f : String) :
    alookup (fsRemove fs f) f = none := by
  induction fs with
  | nil => rfl
  | cons p rest ih =>
    rw [fsRemove]
    by_cases hp : p.1 = f
    · rw [if_pos hp]
      exact ih
    · rw [if_neg hp, alookup, if_neg hp]
      exact ih

theorem stampPhase_no_fileExists {a c : List (String × PyVal)} {ts : String}
    {e : NcErr} (h : stampPhase a c ts = Except.error e) :
    ∀ f, e ≠ NcErr.fileExists f := by
  rw [stampPhase] at h
  cases hdc : alookup a "date_created" with
  | none =>
    rw [hdc] at h
    dsimp only [] at h
    cases hh : alookup c "history" with
    | none =>
      rw [hh] at h
      exact absurd h (by simp)
    | some v =>
      rw [hh] at h
      cases v with
      | str s => exact absurd h (by simp)
      | num q =>
        intro f
        have hr := Except.error.inj h
        subst hr
        simp
      | arr l =>
        intro f
        have hr := Except.error.inj h
        subst hr
        simp
      | pybool b =>
        intro f
        have hr := Except.error.inj h
        subst hr
        simp
      | strList l =>
        intro f
        have hr := Except.error.inj h
        subst hr
        simp
  | some v =>
    rw [hdc] at h
    cases v with
    | str s =>
      dsimp only [] at h
      cases hh : alookup c "history" with
      | none =>
        rw [hh] at h
        exact absurd h (by simp)
      | some v2 =>
        rw [hh] at h
        cases v2 with
        | str s2 => exact absurd h (by simp)
        | num q =>
          intro f
          have hr := Except.error.inj h
          subst hr
          simp
        | arr l =>
          intro f
          have hr := Except.error.inj h
          subst hr
          simp
        | pybool b =>
          intro f
          have hr := Except.error.inj h
          subst hr
          simp
        | strList l =>
          intro f
          have hr := Except.error.inj h
          subst hr
          simp
    | num q =>
      intro f
      have hr := Except.error.inj h
      subst hr
      simp
    | arr l =>
      intro f
      have hr := Except.error.inj h
      subst hr
      simp
    | pybool b =>
      intro f
      have hr := Except.error.inj h
      subst hr
      simp
    | strList l =>
      intro f
      have hr := Except.error.inj h
      subst hr
      simp

theorem buildGroups_no_fileExists :
    ∀ (l : List (String × GroupConfig))
      (dg : List (String × List (String × PyVal))) (fmt : String)
      (acc : List (String × Group)) (warns : List String) (e : NcErr),
      buildGroups dg fmt l acc warns = Except.error e →
      ∀ f, e ≠ NcErr.fileExists f := by
  intro l
  induction l with
  | nil =>
    intro dg fmt acc warns e h
    rw [buildGroups] at h
    exact absurd h (by simp)
  | cons p rest ih =>
    intro dg fmt acc warns e h
    rw [buildGroups] at h
    cases hg : alookup dg p.1 with
    | none =>
      rw [hg] at h
      intro f
      have hr := Except.error.inj h
      subst hr
      simp
    | some gdata =>
      rw [hg] at h
      dsimp only [] at h
      cases hb : _add_to_group emptyGroup gdata p.2 fmt with
      | error e2 =>
        rw [hb] at h
        intro f
        have hr := Except.error.inj h
        subst hr
        simp
      | ok gw =>
        rw [hb] at h
        obtain ⟨g, w⟩ := gw
        dsimp only [] at h
        exact ih _ _ _ _ _ h

theorem buildDataset_no_fileExists {cfg : NcConfig} {data : DataMap}
    {fmt ts : String} {e : NcErr}
    (h : buildDataset cfg data fmt ts = Except.error e) :
    ∀ f, e ≠ NcErr.fileExists f := by
  rw [buildDataset] at h
  dsimp only [] at h
  cases hst : stampPhase (applyCfgGlobalAttrs [] [] cfg.global_attributes).1
      cfg.global_attributes ts with
  | error e2 =>
    rw [hst] at h
    have hr := Except.error.inj h
    subst hr
    exact stampPhase_no_fileExists hst
  | ok attrs2 =>
    rw [hst] at h
    dsimp only [] at h
    cases hgr : cfg.groups with
    | some gs =>
      rw [hgr] at h
      dsimp only [] at h
      cases hbg : buildGroups data.groups fmt gs []
          (applyCfgGlobalAttrs [] [] cfg.global_attributes).2 with
      | error e2 =>
        rw [hbg] at h
        have hr := Except.error.inj h
        subst hr
        exact buildGroups_no_fileExists _ _ _ _ _ _ hbg
      | ok gw =>
        rw [hbg] at h
        obtain ⟨groups, warns2⟩ := gw
        dsimp only [] at h
        exact absurd h (by simp)
    | none =>
      rw [hgr] at h
      dsimp only [] at h
      cases hag : _add_to_group emptyGroup data.entries cfg.root fmt with
      | error e2 =>
        rw [hag] at h
        intro f
        have hr := Except.error.inj h
        subst hr
        simp
      | ok gw =>
        rw [hag] at h
        obtain ⟨g, w⟩ := gw
        dsimp only [] at h
        exact absurd h (by simp)

theorem ncgenOpen_no_fileExists :
    ∀ (fs1 : FS) (filename : String) (data : DataMap)
      (nc_config : ConfigSource) (fmt ts : String) (e : NcErr),
      (ncgenOpen fs1 filename data nc_config fmt ts).2 = Except.error e →
      ∀ f, e ≠ NcErr.fileExists f := by
  intro fs1 filename data nc_config fmt ts e h
  rw [ncgenOpen.eq_def] at h
  by_cases hf : _NC_FMT.contains fmt = true
  · rw [if_pos hf] at h
    cases nc_config with
    | dict c =>
      dsimp only [] at h
      cases hbd : buildDataset c data fmt ts with
      | error e2 =>
        rw [hbd] at h
        dsimp only [] at h
        have hr := Except.error.inj h
        subst hr
        exact buildDataset_no_fileExists hbd
      | ok dw =>
        rw [hbd] at h
        dsimp only [] at h
        exact absurd h (by simp)
    | file path c =>
      dsimp only [] at h
      by_cases hext : extOf path = "json" ∨ extOf path = "toml"
      · rw [if_pos hext] at h
        dsimp only [] at h
        cases hbd : buildDataset c data fmt ts with
        | error e2 =>
          rw [hbd] at h
          dsimp only [] at h
          have hr := Except.error.inj h
          subst hr
          exact buildDataset_no_fileExists hbd
        | ok dw =>
          rw [hbd] at h
          dsimp only [] at h
          exact absurd h (by simp)
      · rw [if_neg hext] at h
        dsimp only [] at h
        intro f
        have hr := Except.error.inj h
        subst hr
        simp
  · rw [if_neg hf] at h
    dsimp only [] at h
    intro f
    have hr := Except.error.inj h
    subst hr
    simp

/-- C9: when the target exists and `clobber` is true, `ncgen` removes
the file first and then behaves exactly as if the path had never
existed — the run on the original filesystem equals the run on the
filesystem with the target removed, the removed filesystem no longer
contains the target, and no existence error can be raised. -/
theorem c9_clobber_removes_then_proceeds :
    ∀ (fs : FS) (filename : String) (data : DataMap)
      (nc_config : ConfigSource) (nc_format ts : String),
      fsExists fs filename = true →
      ncgenRun fs filename data nc_config nc_format true ts =
        ncgenRun (fsRemove fs filename) filename data nc_config nc_format true ts ∧
      fsExists (fsRemove fs filename) filename = false ∧
      (∀ e, (ncgenRun fs filename data nc_config nc_format true ts).2 =
        Except.error e → ∀ f, e ≠ NcErr.fileExists f) := by
  intro fs filename data nc_config nc_format ts hex
  have hrm : fsExists (fsRemove fs filename) filename = false := by
    rw [fsExists, alookup_fsRemove]
    rfl
  have heq : ncgenRun fs filename data nc_config nc_format true ts =
      ncgenRun (fsRemove fs filename) filename data nc_config nc_format true ts := by
    rw [ncgenRun, if_pos hex, if_pos rfl]
    rw [ncgenRun, if_neg (by rw [hrm]; decide)]
  refine ⟨heq, hrm, ?_⟩
  intro e he
  rw [ncgenRun, if_pos hex, if_pos rfl] at he
  exact ncgenOpen_no_fileExists _ _ _ _ _ _ _ he

/-- Witness for C9 at concrete inputs: a minimal run over an existing
target with `clobber` true. -/
theorem c9_clobber_removes_then_proceeds_witness :
    ncgenRun [("out.nc", 7)] "out.nc"
        { entries := [], global_attributes := none, groups := [] }
        (ConfigSource.dict
          { global_attributes := [], groups := none,
            root := { attributes := none, nc_dims := [], nc_vars := [] } })
        "NETCDF4" true "ts" =
      ncgenRun (fsRemove [("out.nc", 7)] "out.nc") "out.nc"
        { entries := [], global_attributes := none, groups := [] }
        (ConfigSource.dict
          { global_attributes := [], groups := none,
            root := { attributes := none, nc_dims := [], nc_vars := [] } })
        "NETCDF4" true "ts" ∧
    fsExists (fsRemove [("out.nc", 7)] "out.nc") "out.nc" = false := by
  have hres := c9_clobber_removes_then_proceeds [("out.nc", 7)] "out.nc"
    { entries := [], global_attributes := none, groups := [] }
    (ConfigSource.dict
      { global_attributes := [], groups := none,
        root := { attributes := none, nc_dims := [], nc_vars := [] } })
    "NETCDF4" "ts" (by decide)
  exact ⟨hres.1, hres.2.1⟩

theorem alookup_append {α : Type} (l1 l2 : List (String × α)) (k : String) :
    alookup (l1 ++ l2) k =
      match alookup l1 k with
      | some v => some v
      | none => alookup l2 k := by
  induction l1 with
  | nil => rfl
  | cons p rest ih =>
    rw [List.cons_append]
    by_cases hp : p.1 = k
    · simp [alookup, hp]
    · simp [alookup, hp, ih]

theorem alookup_eq_none_iff {α : Type} (l : List (String × α)) (k : String) :
    alookup l k = none ↔ ∀ p ∈ l, p.1 ≠ k := by
  induction l with
  | nil => simp [alookup]
  | cons p rest ih =>
    rw [alookup]
    by_cases hp : p.1 = k
    · simp [hp]
    · simp [hp, ih]

theorem alookup_foldl_not_mem {α : Type} :
    ∀ (gl : List (String × α)) (base : List (String × α)) (k : String),
      (∀ p ∈ gl, p.1 ≠ k) →
      alookup (gl.foldl (fun a p => setAssoc a p.1 p.2) base) k = alookup base k := by
  intro gl
  induction gl with
  | nil =>
    intro base k h
    rfl
  | cons p rest ih =>
    intro base k h
    rw [List.foldl_cons]
    rw [ih _ _ (fun q hq => h q (List.mem_cons_of_mem _ hq))]
    exact alookup_setAssoc_other _ _ _ _
      (Ne.symm (h p (List.mem_cons_self _ _)))

theorem alookup_foldl_setAssoc {α : Type} :
    ∀ (gl : List (String × α)) (base : List (String × α)) (k : String) (v : α),
      alookup gl.reverse k = some v →
      alookup (gl.foldl (fun a p => setAssoc a p.1 p.2) base) k = some v := by
  intro gl
  induction gl with
  | nil =>
    intro base k v h
    exact absurd h (by simp [alookup])
  | cons p rest ih =>
    intro base k v h
    rw [List.reverse_cons, alookup_append] at h
    rw [List.foldl_cons]
    cases hr : alookup rest.reverse k with
    | some v2 =>
      rw [hr] at h
      dsimp only [] at h
      have hv := Option.some.inj h
      subst hv
      exact ih _ _ _ hr
    | none =>
      rw [hr] at h
      dsimp only [] at h
      rw [alookup] at h
      by_cases hp : p.1 = k
      · rw [if_pos hp] at h
        have hv := Option.some.inj h
        have hnot : ∀ q ∈ rest, q.1 ≠ k := fun q hq =>
          (alookup_eq_none_iff rest.reverse k).mp hr q (List.mem_reverse.mpr hq)
        rw [alookup_foldl_not_mem rest _ k hnot]
        subst hp
        rw [alookup_setAssoc_self, hv]
      · rw [if_neg hp] at h
        exact absurd h (by simp [alookup])

/-- C10: when the data mapping carries a `global_attributes` entry,
every pair of it is set on the dataset after the configuration's
global attributes and the timestamp stamping (the last occurrence of a
name wins), and the run's warning list is computed independently of
the data-supplied attributes — replacing them by anything leaves the
warnings unchanged, so no data-supplied name is ever checked against
the vocabulary or warned about. -/
theorem c10_data_global_attributes :
    ∀ (cfg : NcConfig) (data : DataMap) (fmt ts : String) (ds : Dataset)
      (ws : List String) (gl : List (String × PyVal)),
      buildDataset cfg data fmt ts = Except.ok (ds, ws) →
      data.global_attributes = some gl →
      (∃ base, stampPhase (applyCfgGlobalAttrs [] [] cfg.global_attributes).1
          cfg.global_attributes ts = Except.ok base ∧
        ds.attrs = applyDataGlobalAttrs base (some gl) ∧
        (∀ k v, alookup gl.reverse k = some v → alookup ds.attrs k = some v)) ∧
      (∀ o, ∃ ds2, buildDataset cfg { data with global_attributes := o } fmt ts =
          Except.ok (ds2, ws)) := by
  intro cfg data fmt ts ds ws gl h hgl
  rw [buildDataset] at h
  dsimp only [] at h
  cases hst : stampPhase (applyCfgGlobalAttrs [] [] cfg.global_attributes).1
      cfg.global_attributes ts with
  | error e =>
    rw [hst] at h
    exact absurd h (by simp)
  | ok attrs2 =>
    rw [hst] at h
    dsimp only [] at h
    cases hgr : cfg.groups with
    | some gs =>
      rw [hgr] at h
      dsimp only [] at h
      cases hbg : buildGroups data.groups fmt gs []
          (applyCfgGlobalAttrs [] [] cfg.global_attributes).2 with
      | error e =>
        rw [hbg] at h
        exact absurd h (by simp)
      | ok gw =>
        rw [hbg] at h
        obtain ⟨groups, warns2⟩ := gw
        dsimp only [] at h
        have hpair := Except.ok.inj h
        rw [Prod.mk.injEq] at hpair
        constructor
        · refine ⟨attrs2, rfl, ?_, ?_⟩
          · rw [← hpair.1]
            dsimp only []
            rw [hgl]
          · intro k v hk
            rw [← hpair.1]
            dsimp only []
            rw [hgl, applyDataGlobalAttrs]
            exact alookup_foldl_setAssoc gl attrs2 k v hk
        · intro o
          refine ⟨{ attrs := applyDataGlobalAttrs attrs2 o, root := emptyGroup,
                    groups := groups }, ?_⟩
          rw [buildDataset]
          dsimp only []
          rw [hst]
          dsimp only []
          rw [hgr]
          dsimp only []
          rw [show ({ data with global_attributes := o } : DataMap).groups =
            data.groups from rfl]
          rw [hbg]
          dsimp only []
          rw [← hpair.2]
    | none =>
      rw [hgr] at h
      dsimp only [] at h
      cases hag : _add_to_group emptyGroup data.entries cfg.root fmt with
      | error e =>
        rw [hag] at h
        exact absurd h (by simp)
      | ok gw =>
        rw [hag] at h
        obtain ⟨g, w⟩ := gw
        dsimp only [] at h
        have hpair := Except.ok.inj h
        rw [Prod.mk.injEq] at hpair
        constructor
        · refine ⟨attrs2, rfl, ?_, ?_⟩
          · rw [← hpair.1]
            dsimp only []
            rw [hgl]
          · intro k v hk
            rw [← hpair.1]
            dsimp only []
            rw [hgl, applyDataGlobalAttrs]
            exact alookup_foldl_setAssoc gl attrs2 k v hk
        · intro o
          refine ⟨{ attrs := applyDataGlobalAttrs attrs2 o, root := g,
                    groups := [] }, ?_⟩
          rw [buildDataset]
          dsimp only []
          rw [hst]
          dsimp only []
          rw [hgr]
          dsimp only []
          rw [show ({ data with global_attributes := o } : DataMap).entries =
            data.entries from rfl]
          rw [hag]
          dsimp only []
          rw [← hpair.2]

/-- Witness for C10 at concrete inputs: a data-supplied attribute
`myattr` (outside the recognized vocabulary) lands on the dataset. -/
theorem c10_data_global_attributes_witness :
    alookup (Dataset.attrs
      { attrs := [("title", PyVal.str "t"), ("date_created", PyVal.str "ts"),
                  ("date_modified", PyVal.str "ts"),
                  ("history", PyVal.str "Created ts"),
                  ("myattr", PyVal.num 5)],
        root := { dims := [], vars := [], attrs := [] }, groups := [] })
      "myattr" = some (PyVal.num 5) := by
  have hm := c10_data_global_attributes
    { global_attributes := [("title", PyVal.str "t")], groups := none,
      root := { attributes := none, nc_dims := [], nc_vars := [] } }
    { entries := [], global_attributes := some [("myattr", PyVal.num 5)],
      groups := [] }
    "NETCDF4" "ts"
    { attrs := [("title", PyVal.str "t"), ("date_created", PyVal.str "ts"),
                ("date_modified", PyVal.str "ts"),
                ("history", PyVal.str "Created ts"),
                ("myattr", PyVal.num 5)],
      root := { dims := [], vars := [], attrs := [] }, groups := [] }
    [] [("myattr", PyVal.num 5)] (by decide) (by rfl)
  obtain ⟨base, hstamp, hattrs, hlast⟩ := hm.1
  exact hlast "myattr" (PyVal.num 5) (by rfl)

end NcGen
